import Mathlib

/-!
Shallow embedding of the SPB accelerometer driver core
(src/spb/SpbAccelerometerV2) and proofs about its client arbitration
engine, sensor state machine, report throttle and data path.

Conventions of the embedding:
* `HRESULT` values are modelled by the inductive `HStatus`, keeping the
  distinctions the code observes (`S_OK`, `S_FALSE`, the `E_*` codes and
  the `HRESULT_FROM_WIN32(ERROR_*)` codes that appear in the sources).
* `PROPVARIANT` values are modelled by `PVal`; the numeric payload of
  `VT_R4`/`VT_R8` is a rational number (every value the driver actually
  produces, `raw / 256`, is exactly representable, and the only numeric
  operation performed on sensitivities is `min`).
* `IPortableDeviceValues` collections are association lists in insertion
  order with the `SetValue` replace-or-append semantics.
* `IWDFFile*` client handles and `PROPERTYKEY`s are opaque `Nat`s.
* `ULONG` counters use wrap-around arithmetic modulo `2 ^ 32` where the
  code can actually overflow them.
-/

namespace SpbAccel

/-- Model of the `HRESULT` values distinguished by the driver sources. -/
inductive HStatus where
  | sOk
  | sFalse
  | eInvalidArg
  | eOutOfMemory
  | eUnexpected
  | errFileExists
  | errFileNotFound
  | errInvalidState
  | errNotFound
  | errNotSupported
  deriving DecidableEq, Repr

/-- `SUCCEEDED(hr)`: non-negative `HRESULT`s, i.e. `S_OK` and `S_FALSE`. -/
def HStatus.succeeded : HStatus → Bool
  | .sOk => true
  | .sFalse => true
  | _ => false

/-- `VARTYPE` tags the driver distinguishes on `PROPVARIANT`s. -/
inductive VType where
  | tNull
  | tR4
  | tR8
  | tUI4
  deriving DecidableEq, Repr

/-- Model of a `PROPVARIANT`: `VT_NULL`, `VT_R4`, `VT_R8` or `VT_UI4`.
The numeric payload of the floating types is a rational. -/
inductive PVal where
  | vNull
  | vR4 (q : Rat)
  | vR8 (q : Rat)
  | vUI4 (n : Nat)
  deriving DecidableEq, Repr

/-- The `vt` tag of a modelled `PROPVARIANT`. -/
def PVal.vt : PVal → VType
  | .vNull => .tNull
  | .vR4 _ => .tR4
  | .vR8 _ => .tR8
  | .vUI4 _ => .tUI4

/-- Numeric payload of a `VT_R4`/`VT_R8` value (`fltVal`/`dblVal`). -/
def PVal.payload : PVal → Rat
  | .vR4 q => q
  | .vR8 q => q
  | _ => 0

/-- Overwrite the numeric payload, keeping the tag (the code writes
`var.fltVal`/`var.dblVal` in place and then stores `var`). -/
def PVal.withPayload : PVal → Rat → PVal
  | .vR4 _, q => .vR4 q
  | .vR8 _, q => .vR8 q
  | v, _ => v

/-- `true` for the two numeric tags the arbitration engine supports. -/
def PVal.isNumeric : PVal → Bool
  | .vR4 _ => true
  | .vR8 _ => true
  | _ => false

/-- An `IPortableDeviceValues`-style collection: key/value pairs in
insertion order. Also used for the client map keyed by file handles. -/
abbrev AList (β : Type) := List (Nat × β)

/-- `GetValue`: first value stored under the key, if any. -/
def alGet {β : Type} : AList β → Nat → Option β
  | [], _ => none
  | p :: rest, k => if p.1 = k then some p.2 else alGet rest k

/-- `SetValue`: replace the value under an existing key, else append. -/
def alSet {β : Type} : AList β → Nat → β → AList β
  | [], k, v => [(k, v)]
  | p :: rest, k, v => if p.1 = k then (k, v) :: rest else p :: alSet rest k v

/-- `std::map::erase` of a key (removes the entry when present). -/
def alErase {β : Type} : AList β → Nat → AList β
  | [], _ => []
  | p :: rest, k => if p.1 = k then rest else p :: alErase rest k

/-- The keys of a collection, in storage order. -/
def alKeys {β : Type} (m : AList β) : List Nat := m.map (fun p => p.1)

/-- Key membership test. -/
def alHas {β : Type} (m : AList β) (k : Nat) : Bool := (alGet m k).isSome

/-! ## ClientManager (ClientManager.cpp) -/

/-- `CLIENT_ENTRY` (ClientManager.h): subscription flag, desired
per-data-field change sensitivities, desired report interval. -/
structure ClientEntry where
  fSubscribed : Bool
  pDesiredSensitivityValues : AList PVal
  desiredReportInterval : Nat
  deriving DecidableEq, Repr

/-- `CURRENT_REPORT_INTERVAL_NOT_SET` (ClientManager.cpp line 37). -/
def CURRENT_REPORT_INTERVAL_NOT_SET : Nat := 0

/-- `ULONG_MAX`. -/
def ULONG_MAX : Nat := 4294967295

/-- Modulus of `ULONG` arithmetic. -/
def ULONG_MOD : Nat := 4294967296

/-- `ULONG` increment with wrap-around. -/
def ulongInc (n : Nat) : Nat := (n + 1) % ULONG_MOD

/-- `ULONG` decrement with wrap-around. -/
def ulongDec (n : Nat) : Nat := (n + ULONG_MAX) % ULONG_MOD

/-- State of `CClientManager`. -/
structure ClientManager where
  pClientList : AList ClientEntry
  clientCount : Nat
  subscriberCount : Nat
  defaultReportInterval : Nat
  minSupportedReportInterval : Nat
  minReportInterval : Nat
  minReportIntervalExplicitlySet : Bool
  defaultSensitivityValues : AList PVal
  minSensitivityValues : AList PVal
  deriving DecidableEq, Repr

/-- `CClientManager::Initialize` on a freshly constructed manager: both
sensitivity collections are copies of the defaults, the minimum report
interval starts at the default. -/
def ClientManager.init (defaultRI minRI : Nat) (defaults : AList PVal) :
    ClientManager :=
  { pClientList := []
    clientCount := 0
    subscriberCount := 0
    defaultReportInterval := defaultRI
    minSupportedReportInterval := minRI
    minReportInterval := defaultRI
    minReportIntervalExplicitlySet := false
    defaultSensitivityValues := defaults
    minSensitivityValues := defaults }

/-- The reset loop at the top of `RecalculateProperties` (lines
1188-1201): every stored minimum sensitivity is set to `VT_NULL`,
keeping the keys. -/
def resetMinSens (m : AList PVal) : AList PVal :=
  m.map (fun p => (p.1, PVal.vNull))

/-- One `min` fold step of `RecalculateProperties` (lines 1237-1259),
dispatching on the tag of the stored minimum `varMin`: `VT_NULL` takes
the client's value, `VT_R4`/`VT_R8` fold `min` into the client value's
payload in place, anything else is `ERROR_NOT_SUPPORTED`. -/
def minFoldStep (varMin var : PVal) : HStatus × PVal :=
  match varMin with
  | .vNull => (.sOk, var)
  | .vR4 a => (.sOk, var.withPayload (min a var.payload))
  | .vR8 a => (.sOk, var.withPayload (min a var.payload))
  | _ => (.errNotSupported, var)

/-- The inner loop of `RecalculateProperties` (lines 1216-1279) over one
client's desired sensitivity values, threading `hr` and aborting the
fold at the first failure. -/
def foldSensList (minSens : AList PVal) : AList PVal → HStatus × AList PVal
  | [] => (.sOk, minSens)
  | (k, v) :: rest =>
    if v = PVal.vNull then
      foldSensList minSens rest
    else
      match alGet minSens k with
      | none => (.errNotFound, minSens)
      | some varMin =>
        let r := minFoldStep varMin v
        if r.1.succeeded then
          foldSensList (alSet minSens k r.2) rest
        else
          (r.1, minSens)

/-- The outer client loop of `RecalculateProperties` (lines 1207-1296):
per client, fold the sensitivities, then fold the desired report
interval (lines 1281-1292); stop at the first failure. -/
def recalcLoop :
    AList ClientEntry → AList PVal → Nat → Bool →
    HStatus × AList PVal × Nat × Bool
  | [], minSens, minRI, explicitFlag => (.sOk, minSens, minRI, explicitFlag)
  | (_, e) :: rest, minSens, minRI, explicitFlag =>
    let r := foldSensList minSens e.pDesiredSensitivityValues
    if r.1.succeeded then
      if e.desiredReportInterval ≠ CURRENT_REPORT_INTERVAL_NOT_SET ∧
          e.desiredReportInterval < minRI then
        recalcLoop rest r.2 e.desiredReportInterval true
      else
        recalcLoop rest r.2 minRI explicitFlag
    else
      (r.1, r.2, minRI, explicitFlag)

/-- The default fill loop of `RecalculateProperties` (lines 1301-1333):
every minimum left at `VT_NULL` is replaced by the configured default;
iterates over the key snapshot, stops at the first failure. -/
def fillDefaultsLoop (defaults : AList PVal) :
    List Nat → AList PVal → HStatus × AList PVal
  | [], minSens => (.sOk, minSens)
  | k :: rest, minSens =>
    match alGet minSens k with
    | none => (.errNotFound, minSens)
    | some v =>
      if v = PVal.vNull then
        match alGet defaults k with
        | none => (.errNotFound, minSens)
        | some dv => fillDefaultsLoop defaults rest (alSet minSens k dv)
      else
        fillDefaultsLoop defaults rest minSens

/-- `CClientManager::RecalculateProperties` (lines 1176-1357). -/
def ClientManager.recalculateProperties (s : ClientManager) :
    HStatus × ClientManager :=
  let ms0 := resetMinSens s.minSensitivityValues
  let r := recalcLoop s.pClientList ms0 ULONG_MAX false
  let s1 := { s with
    minSensitivityValues := r.2.1
    minReportInterval := r.2.2.1
    minReportIntervalExplicitlySet := r.2.2.2 }
  if r.1.succeeded then
    let r2 := fillDefaultsLoop s1.defaultSensitivityValues
      (alKeys s1.minSensitivityValues) s1.minSensitivityValues
    let s2 := { s1 with minSensitivityValues := r2.2 }
    if r2.1.succeeded then
      if s2.minReportInterval = ULONG_MAX then
        (.sOk, { s2 with minReportInterval := s2.defaultReportInterval })
      else
        (.sOk, s2)
    else
      (r2.1, s2)
  else
    (r.1, s1)

/-- `CClientManager::Connect` (lines 174-263). -/
def ClientManager.connect (s : ClientManager) (id : Nat) :
    HStatus × ClientManager :=
  if s.pClientList.length ≠ s.clientCount then
    (.errInvalidState, s)
  else if alHas s.pClientList id then
    (.errFileExists, s)
  else
    let entry : ClientEntry :=
      { fSubscribed := false
        pDesiredSensitivityValues := []
        desiredReportInterval := CURRENT_REPORT_INTERVAL_NOT_SET }
    ClientManager.recalculateProperties
      { s with
        pClientList := alSet s.pClientList id entry
        clientCount := ulongInc s.clientCount }

/-- `CClientManager::Disconnect` (lines 278-375). -/
def ClientManager.disconnect (s : ClientManager) (id : Nat) :
    HStatus × ClientManager :=
  if s.clientCount = 0 then
    (.errInvalidState, s)
  else if s.pClientList.length ≠ s.clientCount then
    (.errInvalidState, s)
  else
    match alGet s.pClientList id with
    | none => (.errFileNotFound, s)
    | some entry =>
      ClientManager.recalculateProperties
        { s with
          pClientList := alErase s.pClientList id
          subscriberCount :=
            if entry.fSubscribed then ulongDec s.subscriberCount
            else s.subscriberCount
          clientCount := ulongDec s.clientCount }

/-- `CClientManager::Subscribe` (lines 390-460). -/
def ClientManager.subscribe (s : ClientManager) (id : Nat) :
    HStatus × ClientManager :=
  match alGet s.pClientList id with
  | none => (.errFileNotFound, s)
  | some entry =>
    if entry.fSubscribed then
      (.errInvalidState, s)
    else
      ClientManager.recalculateProperties
        { s with
          pClientList :=
            alSet s.pClientList id { entry with fSubscribed := true }
          subscriberCount := ulongInc s.subscriberCount }

/-- `CClientManager::Unsubscribe` (lines 475-545). -/
def ClientManager.unsubscribe (s : ClientManager) (id : Nat) :
    HStatus × ClientManager :=
  match alGet s.pClientList id with
  | none => (.errFileNotFound, s)
  | some entry =>
    if entry.fSubscribed = false then
      (.errInvalidState, s)
    else
      ClientManager.recalculateProperties
        { s with
          pClientList :=
            alSet s.pClientList id { entry with fSubscribed := false }
          subscriberCount := ulongDec s.subscriberCount }

/-- `DATA_UPDATE_MODE`. -/
inductive DataUpdateMode where
  | off
  | polling
  | eventing
  deriving DecidableEq, Repr

/-- `CClientManager::GetDataUpdateMode` (lines 608-637). -/
def ClientManager.getDataUpdateMode (s : ClientManager) : DataUpdateMode :=
  if s.clientCount = 0 then
    .off
  else if 0 < s.subscriberCount ∨ s.minReportIntervalExplicitlySet = true then
    .eventing
  else
    .polling

/-- `CClientManager::SetDesiredReportInterval` (lines 1091-1162):
`0` means revert to default, otherwise the value must be at least the
minimum supported report interval. -/
def ClientManager.setDesiredReportInterval (s : ClientManager)
    (id : Nat) (reportInterval : Nat) : HStatus × ClientManager :=
  if reportInterval ≠ 0 ∧ reportInterval < s.minSupportedReportInterval then
    (.eInvalidArg, s)
  else
    match alGet s.pClientList id with
    | none => (.errFileNotFound, s)
    | some entry =>
      ClientManager.recalculateProperties
        { s with
          pClientList :=
            alSet s.pClientList id
              { entry with desiredReportInterval := reportInterval } }

/-- An entry of the per-key result map built by
`SetDesiredChangeSensitivity`: `SetValue` of the accepted value or
`SetErrorValue` of the per-item failure code. -/
inductive RVal where
  | ok (v : PVal)
  | err (hr : HStatus)
  deriving DecidableEq, Repr

/-- The negative-payload test of the validation: `var.vt == VT_R4 &&
var.fltVal < 0.0f` or `var.vt == VT_R8 && var.dblVal < 0.0f`. -/
def PVal.isNegative : PVal → Bool
  | .vR4 q => q < 0
  | .vR8 q => q < 0
  | _ => false

/-- The per-item validation of `SetDesiredChangeSensitivity` (lines
987-1002): the key must exist in the stored minimums, the tag must match
the stored tag or be `VT_NULL`, and `VT_R4`/`VT_R8` payloads must be
non-negative. -/
def validateSensItem (minSens : AList PVal) (k : Nat) (v : PVal) : HStatus :=
  match alGet minSens k with
  | none => .errNotFound
  | some varTemp =>
    if (v.vt ≠ varTemp.vt ∧ v.vt ≠ VType.tNull) ∨ v.isNegative = true then
      .eInvalidArg
    else
      .sOk

/-- The item loop of `SetDesiredChangeSensitivity` (lines 972-1056):
each item is validated on its own; an accepted item is stored in the
client's desired values and echoed in the result map, a rejected item
puts its error in the result map and raises the `fError` flag. -/
def setDCSLoop (minSens : AList PVal) :
    List (Nat × PVal) → AList PVal → AList RVal → Bool →
    AList PVal × AList RVal × Bool
  | [], clientVals, results, fError => (clientVals, results, fError)
  | (k, v) :: rest, clientVals, results, fError =>
    let hrTemp := validateSensItem minSens k v
    if hrTemp.succeeded then
      setDCSLoop minSens rest (alSet clientVals k v)
        (alSet results k (RVal.ok v)) fError
    else
      setDCSLoop minSens rest clientVals
        (alSet results k (RVal.err hrTemp)) true

/-- `CClientManager::SetDesiredChangeSensitivity` (lines 905-1074):
returns the status, the per-key result map, and the new state. After the
item loop the minimum properties are recalculated; if any item failed
and everything else succeeded, the overall status is `S_FALSE`. -/
def ClientManager.setDesiredChangeSensitivity (s : ClientManager)
    (id : Nat) (vals : List (Nat × PVal)) :
    HStatus × AList RVal × ClientManager :=
  match alGet s.pClientList id with
  | none => (.errFileNotFound, [], s)
  | some entry =>
    let r := setDCSLoop s.minSensitivityValues vals
      entry.pDesiredSensitivityValues [] false
    let s1 := { s with
      pClientList :=
        alSet s.pClientList id
          { entry with pDesiredSensitivityValues := r.1 } }
    let r2 := ClientManager.recalculateProperties s1
    if r2.1.succeeded ∧ r.2.2 = true then
      (.sFalse, r.2.1, r2.2)
    else
      (r2.1, r.2.1, r2.2)

/-! ## SensorDevice (SensorDevice.cpp) -/

/-- `SensorState`: the driver only distinguishes ready and no-data. -/
inductive SensorState where
  | ready
  | noData
  deriving DecidableEq, Repr

/-- The part of `CSensorDevice` state the embedded operations touch:
data-field cache, timestamp, cached sensor state with its dirty flag,
committed data-update mode, initialization flag, the report manager's
interval, and a counter of `CReportManager::NewDataAvailable` calls. -/
structure SensorDevice where
  sensorDataFieldValues : AList PVal
  timestamp : Nat
  sensorState : SensorState
  fStateChanged : Bool
  dataUpdateMode : DataUpdateMode
  fSensorInitialized : Bool
  reportManagerInterval : Nat
  newDataSignals : Nat
  deriving DecidableEq, Repr

/-- Results of the hardware operations an apply can perform, one slot
per virtual method of the hardware abstraction; the embedding leaves the
outcome of each register sequence abstract. -/
structure HwResults where
  setReportIntervalHr : HStatus
  setChangeSensitivityHr : HStatus
  setDeviceStateStandbyHr : HStatus
  setDeviceStatePollingHr : HStatus
  setDeviceStateEventingHr : HStatus
  deriving DecidableEq, Repr

/-- `CSensorDevice::SetState` (lines 1589-1643): if the cached state
differs from the new one, store it and raise the state-changed flag. -/
def SensorDevice.setState (s : SensorDevice) (newState : SensorState) :
    HStatus × SensorDevice :=
  if s.sensorState ≠ newState then
    (.sOk, { s with sensorState := newState, fStateChanged := true })
  else
    (.sOk, s)

/-- `CSensorDevice::SetTimeStamp`: overwrite the cached timestamp with
the current time. -/
def SensorDevice.setTimeStamp (s : SensorDevice) (now : Nat) :
    HStatus × SensorDevice :=
  (.sOk, { s with timestamp := now })

/-- `CSensorDevice::SetDataUpdateMode` (lines 485-529): dispatch to the
per-mode hardware apply; commit `m_DataUpdateMode` only on success. -/
def SensorDevice.setDataUpdateMode (hw : HwResults) (s : SensorDevice)
    (mode : DataUpdateMode) : HStatus × SensorDevice :=
  let hr :=
    match mode with
    | .off => hw.setDeviceStateStandbyHr
    | .polling => hw.setDeviceStatePollingHr
    | .eventing => hw.setDeviceStateEventingHr
  if hr.succeeded then
    (hr, { s with dataUpdateMode := mode })
  else
    (hr, s)

/-- `CSensorDevice::ApplyUpdatedProperties` (lines 2189-2252): push the
arbitrated report interval and change sensitivity to the hardware and
the report manager, then derive the new data-update mode from the client
manager and commit it through `SetDataUpdateMode` when it changed. -/
def SensorDevice.applyUpdatedProperties (hw : HwResults)
    (cm : ClientManager) (s : SensorDevice) : HStatus × SensorDevice :=
  if s.fSensorInitialized = false then
    (.eUnexpected, s)
  else if hw.setReportIntervalHr.succeeded = false then
    (hw.setReportIntervalHr, s)
  else
    let s1 := { s with reportManagerInterval := cm.minReportInterval }
    if hw.setChangeSensitivityHr.succeeded = false then
      (hw.setChangeSensitivityHr, s1)
    else
      let newMode := cm.getDataUpdateMode
      if newMode ≠ s1.dataUpdateMode then
        SensorDevice.setDataUpdateMode hw s1 newMode
      else
        (.sOk, s1)

/-- The cache-update loop shared by `DataAvailable` (lines 2007-2029)
and `PollForData` (lines 2134-2156): fold the batch into the data-field
cache in order. -/
def mergeDataValues (cache : AList PVal) : List (Nat × PVal) → AList PVal
  | [] => cache
  | (k, v) :: rest => mergeDataValues (alSet cache k v) rest

/-- `CSensorDevice::RaiseDataEvent` (lines 2067-2081): signal the report
manager only when at least one client is subscribed. -/
def SensorDevice.raiseDataEvent (subscriberCount : Nat) (s : SensorDevice) :
    SensorDevice :=
  if 0 < subscriberCount then
    { s with newDataSignals := s.newDataSignals + 1 }
  else
    s

/-- `CSensorDevice::DataAvailable` (lines 1975-2052): timestamp, cache
merge, ready state, then `RaiseDataEvent`. -/
def SensorDevice.dataAvailable (subscriberCount : Nat) (now : Nat)
    (vals : List (Nat × PVal)) (s : SensorDevice) : HStatus × SensorDevice :=
  let r1 := s.setTimeStamp now
  let s2 := { r1.2 with
    sensorDataFieldValues := mergeDataValues r1.2.sensorDataFieldValues vals }
  let r3 := s2.setState .ready
  (.sOk, SensorDevice.raiseDataEvent subscriberCount r3.2)

/-- `CSensorDevice::PollForData` (lines 2096-2173): request new data
synchronously (the received batch is the `vals` argument; a hardware
failure is the `requestHr` argument), merge it into the cache, update
the timestamp, mark the sensor ready. No report-manager signal. -/
def SensorDevice.pollForData (requestHr : HStatus) (now : Nat)
    (vals : List (Nat × PVal)) (s : SensorDevice) : HStatus × SensorDevice :=
  if requestHr.succeeded = false then
    (requestHr, s)
  else
    let s1 := { s with
      sensorDataFieldValues := mergeDataValues s.sensorDataFieldValues vals }
    let r2 := s1.setTimeStamp now
    r2.2.setState .ready

/-! ## GetSupportedEvents (SensorDevice.cpp lines 635-678)

The copy loop is transcribed as written in the source:
`for (DWORD i = 0; i < count; count++) { *(pBuf + i) = events[i].fmtid; }` —
the loop increments `count`, not `i`. `count` is a `ULONG`, so the
incremented value wraps at `2 ^ 32`; the loop guard re-reads the wrapped
value. The buffer is `count` cells of uninitialized memory, modelled as
`Option` cells starting at `none`; event GUIDs are opaque `Nat`s. -/

/-- One transcription of the miscopied loop: while `0 < count` (as a
32-bit value, with `i` pinned at its initial value), write
`events[i]` into `buf[i]` and increment `count`. -/
def supportedEventsLoop (events : List Nat) (i : Nat) :
    Nat → List (Option Nat) → Nat × List (Option Nat)
  | count, buf =>
    if 0 < count % ULONG_MOD then
      supportedEventsLoop events i ((count % ULONG_MOD) + 1)
        (buf.set i (events.get? i))
    else
      (count % ULONG_MOD, buf)
  termination_by count => (ULONG_MOD - count % ULONG_MOD) % ULONG_MOD
  decreasing_by
    rename_i h
    have hmod : count % ULONG_MOD < ULONG_MOD :=
      Nat.mod_lt _ (by decide)
    rcases Nat.lt_or_ge (count % ULONG_MOD + 1) ULONG_MOD with hlt | hge
    · rw [Nat.mod_eq_of_lt hlt]
      have h1 : ULONG_MOD - (count % ULONG_MOD + 1) < ULONG_MOD := by omega
      have h2 : ULONG_MOD - count % ULONG_MOD < ULONG_MOD := by omega
      rw [Nat.mod_eq_of_lt h1, Nat.mod_eq_of_lt h2]
      omega
    · have heq : count % ULONG_MOD + 1 = ULONG_MOD := by omega
      rw [heq]
      simp [ULONG_MOD] at h ⊢
      omega

/-- `CSensorDevice::GetSupportedEvents` (lines 635-678): allocate a
buffer of `count` cells and run the copy loop; the returned event count
is the final value of `count`. -/
def getSupportedEvents (events : List Nat) :
    HStatus × Nat × List (Option Nat) :=
  let count := events.length
  let buf : List (Option Nat) := List.replicate count none
  let r := supportedEventsLoop events 0 count buf
  (.sOk, r.1, r.2)

/-! ## AccelerometerDevice data path (AccelerometerDevice.cpp)

`ACCELEROMETER_MIN_ACCELERATION_G` / `ACCELEROMETER_MAX_ACCELERATION_G`
are defined in a header outside the provided sources, so the declared
range is a parameter `(minG, maxG)` of the embedding; the hardware is
configured for plus/minus 16g (lines 52-56). -/

/-- The data-field keys of the accelerometer
(`SENSOR_DATA_TYPE_ACCELERATION_X_G` and friends), as opaque key
numbers. -/
def KEY_ACCEL_X : Nat := 101

/-- `SENSOR_DATA_TYPE_ACCELERATION_Y_G`. -/
def KEY_ACCEL_Y : Nat := 102

/-- `SENSOR_DATA_TYPE_ACCELERATION_Z_G`. -/
def KEY_ACCEL_Z : Nat := 103

/-- `CAccelerometerDevice::AddDataFieldValue` (lines 2143-2189): an
acceleration key must carry a `VT_R8` value inside the declared range;
on success the value is added to the result set. -/
def addDataFieldValue (minG maxG : Rat) (k : Nat) (v : PVal)
    (pValues : AList PVal) : HStatus × AList PVal :=
  if k = KEY_ACCEL_X ∨ k = KEY_ACCEL_Y ∨ k = KEY_ACCEL_Z then
    match v with
    | .vR8 d =>
      if d < minG ∨ maxG < d then
        (.eInvalidArg, pValues)
      else
        (.sOk, alSet pValues k v)
    | _ => (.eInvalidArg, pValues)
  else
    (.sOk, alSet pValues k v)

/-- The conversion in `CAccelerometerDevice::RequestData` (lines
2442-2453): the 16-bit two's-complement raw value scaled by `1/256`
(exact in both double and rational arithmetic). -/
def rawToG (raw : Int) : Rat := (raw : Rat) / 256

/-- `CAccelerometerDevice::RequestData` (lines 2412-2495): read the raw
sample (the three raw 16-bit values are arguments; `readHr` is the
outcome of the register read), then validate and add X, then Y, then Z,
each step only reached if the previous succeeded. -/
def requestData (minG maxG : Rat) (readHr : HStatus)
    (xRaw yRaw zRaw : Int) : HStatus × AList PVal :=
  if readHr.succeeded = false then
    (readHr, [])
  else
    let r1 := addDataFieldValue minG maxG KEY_ACCEL_X (.vR8 (rawToG xRaw)) []
    if r1.1.succeeded then
      let r2 := addDataFieldValue minG maxG KEY_ACCEL_Y (.vR8 (rawToG yRaw)) r1.2
      if r2.1.succeeded then
        addDataFieldValue minG maxG KEY_ACCEL_Z (.vR8 (rawToG zRaw)) r2.2
      else
        r2
    else
      r1

/-- `CAccelerometerDevice::OnInterruptWorkItem` (lines 2328-2396):
request the data and, only if the whole request succeeded, hand the
batch to `CSensorDevice::DataAvailable`. -/
def onInterruptWorkItem (minG maxG : Rat) (readHr : HStatus)
    (xRaw yRaw zRaw : Int) (subscriberCount now : Nat) (s : SensorDevice) :
    SensorDevice :=
  let r := requestData minG maxG readHr xRaw yRaw zRaw
  if r.1.succeeded then
    (s.dataAvailable subscriberCount now r.2).2
  else
    s

/-! ## ReportThrottle (CReportManager)

Modelled from the spec: `ReportManager.cpp` is not among the provided
sources — only the class declaration `ReportManager.h` is — so the
waiter loop is embedded from spec section 4.3 "ReportThrottle (report
manager)". State: `last_report_time`, `report_interval`, `active`,
a pending-data flag. The loop wakes on a new-data signal or a timeout,
emits only when at least `report_interval` has elapsed since the last
report and data is pending, and emits nothing once stopped. -/

/-- Modelled from the spec: throttle state (spec 4.3 "State:
`last_report_time`, `report_interval`, `active: bool`, a wake
signal"). `pending` is the "pending data" flag. -/
structure Throttle where
  lastReportTime : Nat
  reportInterval : Nat
  active : Bool
  pending : Bool
  deriving DecidableEq, Repr

/-- Modelled from the spec: the events the throttle loop reacts to - a
wake of the waiter at a given time, `set_report_interval`,
`notify_new_data`, and `stop`. -/
inductive ThrottleEvent where
  | wake (now : Nat)
  | setInterval (v : Nat)
  | notify
  | stop
  deriving DecidableEq, Repr

/-- Modelled from the spec: one step of the throttle (spec 4.3 "Loop
behavior"): on a wake, if the throttle is active, data is pending and at
least `report_interval` has elapsed since the previous report, emit a
report (recorded as the pair of emission time and the interval then in
effect), clear the pending flag and update `last_report_time`;
`set_report_interval` updates the interval; `notify_new_data` marks
pending; `stop` deactivates the loop. -/
def throttleStep (s : Throttle) : ThrottleEvent → Throttle × Option (Nat × Nat)
  | .wake now =>
    if s.active = true ∧ s.pending = true ∧
        s.lastReportTime + s.reportInterval ≤ now then
      ({ s with pending := false, lastReportTime := now },
        some (now, s.reportInterval))
    else
      (s, none)
  | .setInterval v => ({ s with reportInterval := v }, none)
  | .notify => ({ s with pending := true }, none)
  | .stop => ({ s with active := false }, none)

/-- Modelled from the spec: a run of the throttle over a list of events,
collecting the emitted reports in order. -/
def throttleRun (s : Throttle) : List ThrottleEvent → Throttle × List (Nat × Nat)
  | [] => (s, [])
  | e :: rest =>
    let r := throttleStep s e
    let rr := throttleRun r.1 rest
    (rr.1, (r.2.toList) ++ rr.2)

/-- Emissions spaced by the report interval: consecutive reports
`(t₁, i₁)`, `(t₂, i₂)` satisfy `t₁ + i₂ ≤ t₂`, where `i₂` is the
interval in effect at the second emission. -/
def Spaced : List (Nat × Nat) → Prop
  | [] => True
  | [_] => True
  | (t1, _) :: (t2, i2) :: rest => t1 + i2 ≤ t2 ∧ Spaced ((t2, i2) :: rest)

/-- Emissions spaced by the interval, with a lower bound for the first
one: the strengthened invariant behind `Spaced`. -/
def SpacedFrom : Nat → List (Nat × Nat) → Prop
  | _, [] => True
  | base, (t, i) :: rest => base + i ≤ t ∧ SpacedFrom t rest

/-! ## Specification-side functions for the arbitration engine -/

/-- A value fits a sensitivity slot: numeric with the tag of the
configured default for its key. -/
def numTagOK (defaults : AList PVal) (k : Nat) (v : PVal) : Bool :=
  match alGet defaults k with
  | none => false
  | some d => v.isNumeric && decide (v.vt = d.vt)

/-- A stored client desired-sensitivity value is either the `VT_NULL`
revert marker or fits its slot. -/
def clientTagOK (defaults : AList PVal) (k : Nat) (v : PVal) : Bool :=
  if v = PVal.vNull then true else numTagOK defaults k v

/-- Invariant of the minimum-sensitivity collection during the fold:
the keys are exactly the default keys and every value is `VT_NULL` or
fits its slot. -/
def MinOK (defaults ms : AList PVal) : Prop :=
  alKeys ms = alKeys defaults ∧
  ∀ p ∈ ms, p.2 = PVal.vNull ∨ numTagOK defaults p.1 p.2 = true

/-- Well-formedness of a client manager state: the minimum and default
sensitivity collections share their (duplicate-free) keys, the defaults
are numeric, the stored minimums fit their slots, and every client's
desired values are duplicate-free and fit their slots. (These all hold
for the accelerometer: `GetDefaultSettableProperties` registers three
distinct `VT_R8` defaults, and every stored client value was validated
against the live collection.) -/
def SensWf (s : ClientManager) : Prop :=
  alKeys s.minSensitivityValues = alKeys s.defaultSensitivityValues ∧
  (alKeys s.defaultSensitivityValues).Nodup ∧
  (∀ p ∈ s.defaultSensitivityValues, p.2.isNumeric = true) ∧
  (∀ p ∈ s.minSensitivityValues,
    numTagOK s.defaultSensitivityValues p.1 p.2 = true) ∧
  (∀ c ∈ s.pClientList,
    (alKeys c.2.pDesiredSensitivityValues).Nodup ∧
    ∀ p ∈ c.2.pDesiredSensitivityValues,
      clientTagOK s.defaultSensitivityValues p.1 p.2 = true)

/-- The desired report intervals that take part in the arbitration: the
nonzero ones below `ULONG_MAX` (0 is the revert marker; `ULONG_MAX`
collides with the fold's sentinel and is ignored by the strict
comparison). -/
def explicitIntervals (clients : AList ClientEntry) : List Nat :=
  (clients.map (fun c => c.2.desiredReportInterval)).filter
    (fun d => decide (d ≠ 0) && decide (d < ULONG_MAX))

/-- A client's effective override for a sensitivity key: its stored
value unless absent or the `VT_NULL` revert marker. -/
def clientOv (cvals : AList PVal) (k : Nat) : Option PVal :=
  match alGet cvals k with
  | none => none
  | some v => if v = PVal.vNull then none else some v

/-- All clients' overrides for a key, in client order. -/
def overridesFor (clients : AList ClientEntry) (k : Nat) : List PVal :=
  clients.filterMap (fun c => clientOv c.2.pDesiredSensitivityValues k)

/-- The pure value of one `min` fold step (the value part of
`minFoldStep`). -/
def combineMin (r v : PVal) : PVal :=
  match r with
  | .vNull => v
  | .vR4 a => v.withPayload (min a v.payload)
  | .vR8 a => v.withPayload (min a v.payload)
  | _ => v

/-- The report-interval part of the client loop of
`RecalculateProperties`, extracted as a pure fold. -/
def foldRI : List Nat → Nat → Bool → Nat × Bool
  | [], m, ex => (m, ex)
  | d :: rest, m, ex =>
    if d ≠ 0 ∧ d < m then foldRI rest d true else foldRI rest m ex

/-- The registry mutations of the client manager, used to quantify over
"after every registry mutation". -/
inductive MutationOp where
  | connect (id : Nat)
  | disconnect (id : Nat)
  | subscribe (id : Nat)
  | unsubscribe (id : Nat)
  | setReportInterval (id : Nat) (v : Nat)
  | setChangeSensitivity (id : Nat) (vals : List (Nat × PVal))
  deriving DecidableEq, Repr

/-- Apply a registry mutation, returning its status and the new state. -/
def applyMutation (op : MutationOp) (s : ClientManager) :
    HStatus × ClientManager :=
  match op with
  | .connect id => s.connect id
  | .disconnect id => s.disconnect id
  | .subscribe id => s.subscribe id
  | .unsubscribe id => s.unsubscribe id
  | .setReportInterval id v => s.setDesiredReportInterval id v
  | .setChangeSensitivity id vals =>
    let r := s.setDesiredChangeSensitivity id vals
    (r.1, r.2.2)

/-- A sample value inside the declared acceleration range. -/
def inRange (minG maxG q : Rat) : Prop := ¬(q < minG ∨ maxG < q)

/-- The arbitrated report interval of a state is correct: it is the
least of the connected clients' explicit desired intervals (the ones
that are at least 1 and below `ULONG_MAX`), or the configured default
when there is none; the explicit flag is set iff such an interval
exists. -/
def ArbitratedIntervalSpec (s : ClientManager) : Prop :=
  (explicitIntervals s.pClientList = [] →
    s.minReportInterval = s.defaultReportInterval ∧
    s.minReportIntervalExplicitlySet = false) ∧
  (explicitIntervals s.pClientList ≠ [] →
    s.minReportInterval ∈ explicitIntervals s.pClientList ∧
    (∀ d ∈ explicitIntervals s.pClientList, s.minReportInterval ≤ d) ∧
    s.minReportIntervalExplicitlySet = true)

/-- The arbitrated change sensitivities of a state are correct: for
every sensitivity key, the stored minimum is exactly the per-field
default when no client overrides the field, and otherwise is a value
with the default's tag whose payload is the least client override. -/
def ArbitratedSensitivitySpec (s : ClientManager) : Prop :=
  ∀ k, k ∈ alKeys s.defaultSensitivityValues →
    (overridesFor s.pClientList k = [] →
      alGet s.minSensitivityValues k = alGet s.defaultSensitivityValues k) ∧
    (overridesFor s.pClientList k ≠ [] →
      ∃ v, alGet s.minSensitivityValues k = some v ∧
        v.payload ∈ (overridesFor s.pClientList k).map PVal.payload ∧
        (∀ q ∈ (overridesFor s.pClientList k).map PVal.payload,
          v.payload ≤ q) ∧
        ∃ d, alGet s.defaultSensitivityValues k = some d ∧ v.vt = d.vt)

/-! ## Association-list lemmas -/

theorem alKeys_nil {β : Type} : alKeys ([] : AList β) = [] := rfl

theorem alKeys_cons {β : Type} (p : Nat × β) (rest : AList β) :
    alKeys (p :: rest) = p.1 :: alKeys rest := rfl

theorem alGet_alSet_self {β : Type} (m : AList β) (k : Nat) (v : β) :
    alGet (alSet m k v) k = some v := by
  induction m with
  | nil => simp [alSet, alGet]
  | cons p rest ih =>
    by_cases h : p.1 = k
    · simp [alSet, h, alGet]
    · simp [alSet, h, alGet, ih]

theorem alGet_alSet_ne {β : Type} (m : AList β) {k k' : Nat} (v : β)
    (h : k' ≠ k) : alGet (alSet m k v) k' = alGet m k' := by
  induction m with
  | nil =>
    have hk : ¬ k = k' := fun hh => h hh.symm
    simp [alSet, alGet, hk]
  | cons p rest ih =>
    by_cases hp : p.1 = k
    · have hk : ¬ k = k' := fun hh => h hh.symm
      have hp' : ¬ p.1 = k' := by rw [hp]; exact hk
      simp only [alSet, if_pos hp, alGet, if_neg hk, if_neg hp']
    · by_cases hp' : p.1 = k'
      · simp only [alSet, if_neg hp, alGet, if_pos hp']
      · simp only [alSet, if_neg hp, alGet, if_neg hp', ih]

theorem mem_alSet {β : Type} {m : AList β} {k : Nat} {v : β} :
    ∀ p ∈ alSet m k v, p = (k, v) ∨ p ∈ m := by
  induction m with
  | nil => simp [alSet]
  | cons q rest ih =>
    intro p hp
    by_cases hq : q.1 = k
    · simp [alSet, hq] at hp
      rcases hp with h | h
      · exact Or.inl (by simp [h])
      · exact Or.inr (by simp [h])
    · simp [alSet, hq] at hp
      rcases hp with h | h
      · exact Or.inr (by simp [h])
      · rcases ih p h with h2 | h2
        · exact Or.inl h2
        · exact Or.inr (by simp [h2])

theorem mem_alErase {β : Type} {m : AList β} {k : Nat} :
    ∀ p ∈ alErase m k, p ∈ m := by
  induction m with
  | nil => simp [alErase]
  | cons q rest ih =>
    intro p hp
    by_cases hq : q.1 = k
    · simp [alErase, hq] at hp
      exact List.mem_cons_of_mem _ hp
    · simp [alErase, hq] at hp
      rcases hp with h | h
      · simp [h]
      · exact List.mem_cons_of_mem _ (ih p h)

theorem alGet_mem {β : Type} {m : AList β} {k : Nat} {v : β}
    (h : alGet m k = some v) : (k, v) ∈ m := by
  induction m with
  | nil => simp [alGet] at h
  | cons p rest ih =>
    by_cases hp : p.1 = k
    · simp [alGet, hp] at h
      subst h
      have hpe : (k, p.2) = p := by rw [← hp]
      rw [hpe]
      exact List.mem_cons_self _ _
    · simp [alGet, hp] at h
      exact List.mem_cons_of_mem _ (ih h)

theorem alGet_isSome_iff_mem {β : Type} {m : AList β} {k : Nat} :
    (alGet m k).isSome = true ↔ k ∈ alKeys m := by
  induction m with
  | nil => simp [alGet, alKeys_nil]
  | cons p rest ih =>
    rw [alKeys_cons]
    by_cases hp : p.1 = k
    · simp [alGet, hp]
    · have hk : ¬ k = p.1 := fun hh => hp hh.symm
      simp [alGet, hp, List.mem_cons, hk, ih]

theorem alGet_eq_none_iff {β : Type} {m : AList β} {k : Nat} :
    alGet m k = none ↔ ¬ k ∈ alKeys m := by
  rw [← alGet_isSome_iff_mem]
  cases alGet m k <;> simp

theorem alKeys_alSet_of_mem {β : Type} {m : AList β} {k : Nat} (v : β)
    (h : k ∈ alKeys m) : alKeys (alSet m k v) = alKeys m := by
  induction m with
  | nil => simp [alKeys_nil] at h
  | cons p rest ih =>
    rw [alKeys_cons] at h
    by_cases hp : p.1 = k
    · simp [alSet, hp, alKeys_cons]
    · have hk : ¬ k = p.1 := fun hh => hp hh.symm
      rcases List.mem_cons.mp h with h1 | h1
      · exact absurd h1 hk
      · simp [alSet, hp, alKeys_cons, ih h1]

theorem alKeys_alSet_of_not_mem {β : Type} {m : AList β} {k : Nat} (v : β)
    (h : ¬ k ∈ alKeys m) : alKeys (alSet m k v) = alKeys m ++ [k] := by
  induction m with
  | nil => simp [alSet, alKeys_nil, alKeys_cons]
  | cons p rest ih =>
    rw [alKeys_cons] at h
    have h1 : ¬ k = p.1 := fun hh => h (List.mem_cons.mpr (Or.inl hh))
    have h2 : ¬ k ∈ alKeys rest :=
      fun hh => h (List.mem_cons.mpr (Or.inr hh))
    have hp : ¬ p.1 = k := fun hh => h1 hh.symm
    simp [alSet, hp, alKeys_cons, ih h2]

theorem alKeys_nodup_alSet {β : Type} {m : AList β} {k : Nat} (v : β)
    (h : (alKeys m).Nodup) : (alKeys (alSet m k v)).Nodup := by
  by_cases hk : k ∈ alKeys m
  · rw [alKeys_alSet_of_mem v hk]
    exact h
  · rw [alKeys_alSet_of_not_mem v hk]
    simp [List.nodup_append, h, hk]

theorem alKeys_resetMinSens (m : AList PVal) :
    alKeys (resetMinSens m) = alKeys m := by
  simp [resetMinSens, alKeys]

theorem alGet_resetMinSens (m : AList PVal) (k : Nat) :
    alGet (resetMinSens m) k = (alGet m k).map (fun _ => PVal.vNull) := by
  induction m with
  | nil => simp [resetMinSens, alGet]
  | cons p rest ih =>
    by_cases hp : p.1 = k
    · simp [resetMinSens, alGet, hp]
    · simpa [resetMinSens, alGet, hp] using ih

/-! ## C1: data update mode derivation -/

/-- C1: for every client manager state (in particular every reachable
one), `GetDataUpdateMode` returns `Off` iff the client count is 0,
`Eventing` iff there are clients and either the subscriber count is
positive or a report interval was explicitly set, and `Polling` in
exactly the remaining cases. -/
theorem getDataUpdateMode_cases (s : ClientManager) :
    (s.getDataUpdateMode = DataUpdateMode.off ↔ s.clientCount = 0) ∧
    (s.getDataUpdateMode = DataUpdateMode.eventing ↔
      (s.clientCount ≠ 0 ∧
        (0 < s.subscriberCount ∨ s.minReportIntervalExplicitlySet = true))) ∧
    (s.getDataUpdateMode = DataUpdateMode.polling ↔
      (s.clientCount ≠ 0 ∧ s.subscriberCount = 0 ∧
        s.minReportIntervalExplicitlySet = false)) := by
  by_cases h1 : s.clientCount = 0
  · have hm : s.getDataUpdateMode = DataUpdateMode.off := by
      unfold ClientManager.getDataUpdateMode
      rw [if_pos h1]
    refine ⟨?_, ?_, ?_⟩
    · simp [hm, h1]
    · simp [hm, h1]
    · simp [hm, h1]
  · by_cases h2 : 0 < s.subscriberCount ∨ s.minReportIntervalExplicitlySet = true
    · have hm : s.getDataUpdateMode = DataUpdateMode.eventing := by
        unfold ClientManager.getDataUpdateMode
        rw [if_neg h1, if_pos h2]
      refine ⟨?_, ?_, ?_⟩
      · simp [hm, h1]
      · simp [hm, h1, h2]
      · rw [hm]
        constructor
        · intro h
          exact absurd h (by decide)
        · rintro ⟨h3, h4, h5⟩
          rcases h2 with h2 | h2
          · omega
          · rw [h2] at h5
            exact absurd h5 (by decide)
    · have hm : s.getDataUpdateMode = DataUpdateMode.polling := by
        unfold ClientManager.getDataUpdateMode
        rw [if_neg h1, if_neg h2]
      push_neg at h2
      refine ⟨?_, ?_, ?_⟩
      · simp [hm, h1]
      · rw [hm]
        constructor
        · intro h
          exact absurd h (by decide)
        · rintro ⟨h3, h4⟩
          rcases h4 with h4 | h4
          · omega
          · exact absurd h4 (by simpa using h2.2)
      · rw [hm]
        constructor
        · intro h
          refine ⟨h1, by omega, ?_⟩
          simpa using h2.2
        · intro h
          rfl

/-! ## C4: failing registry operations -/

/-- C4 counterexample: disconnecting a never-connected id from an empty
registry fails with `ERROR_INVALID_STATE` (the `m_ClientCount == 0`
guard fires first), not with the not-found error the claim names. -/
theorem disconnect_empty_invalidState :
    ClientManager.disconnect (ClientManager.init 1000 10 []) 1 =
      (HStatus.errInvalidState, ClientManager.init 1000 10 []) ∧
    HStatus.errInvalidState ≠ HStatus.errFileNotFound := by
  constructor
  · rfl
  · decide

/-- C4 (amended): with a consistent registry, disconnecting an
unregistered id fails with the not-found error when at least one client
is connected (and with the invalid-state error on an empty registry);
subscribing or unsubscribing an unregistered id fails with the
not-found error; subscribing an already-subscribed client, or
unsubscribing one that is not subscribed, fails with the invalid-state
error; every such failing call returns the state unchanged (client
list, client count, subscriber count and arbitrated settings are all
those of `s`). -/
theorem failing_registry_ops_unchanged (s : ClientManager) (id : Nat)
    (hlen : s.pClientList.length = s.clientCount) :
    (alGet s.pClientList id = none →
      s.disconnect id =
        ((if s.clientCount = 0 then HStatus.errInvalidState
          else HStatus.errFileNotFound), s) ∧
      s.subscribe id = (HStatus.errFileNotFound, s) ∧
      s.unsubscribe id = (HStatus.errFileNotFound, s)) ∧
    (∀ e, alGet s.pClientList id = some e →
      (e.fSubscribed = true →
        s.subscribe id = (HStatus.errInvalidState, s)) ∧
      (e.fSubscribed = false →
        s.unsubscribe id = (HStatus.errInvalidState, s))) := by
  constructor
  · intro hnone
    refine ⟨?_, ?_, ?_⟩
    · by_cases hc : s.clientCount = 0
      · simp [ClientManager.disconnect, hc]
      · simp [ClientManager.disconnect, hc, hlen, hnone]
    · simp [ClientManager.subscribe, hnone]
    · simp [ClientManager.unsubscribe, hnone]
  · intro e he
    constructor
    · intro hsub
      simp [ClientManager.subscribe, he, hsub]
    · intro hsub
      simp [ClientManager.unsubscribe, he, hsub]

/-- C4 witness: the amended theorem applied to the freshly initialized
registry and client id 1. -/
theorem failing_registry_ops_unchanged_witness :
    (alGet (ClientManager.init 1000 10 []).pClientList 1 = none →
      (ClientManager.init 1000 10 []).disconnect 1 =
        ((if (ClientManager.init 1000 10 []).clientCount = 0 then
            HStatus.errInvalidState
          else HStatus.errFileNotFound), ClientManager.init 1000 10 []) ∧
      (ClientManager.init 1000 10 []).subscribe 1 =
        (HStatus.errFileNotFound, ClientManager.init 1000 10 []) ∧
      (ClientManager.init 1000 10 []).unsubscribe 1 =
        (HStatus.errFileNotFound, ClientManager.init 1000 10 [])) ∧
    (∀ e, alGet (ClientManager.init 1000 10 []).pClientList 1 = some e →
      (e.fSubscribed = true →
        (ClientManager.init 1000 10 []).subscribe 1 =
          (HStatus.errInvalidState, ClientManager.init 1000 10 [])) ∧
      (e.fSubscribed = false →
        (ClientManager.init 1000 10 []).unsubscribe 1 =
          (HStatus.errInvalidState, ClientManager.init 1000 10 []))) :=
  failing_registry_ops_unchanged (ClientManager.init 1000 10 []) 1
    (by decide)

/-! ## C7: atomic mode commit -/

/-- C7: `SetDataUpdateMode` commits `m_DataUpdateMode` only when the
per-mode hardware apply succeeded, and `ApplyUpdatedProperties` leaves
the committed mode untouched whenever any of its steps fails, committing
the newly derived mode only when the whole apply succeeds. -/
theorem mode_commit_atomic (hw : HwResults) (cm : ClientManager)
    (s : SensorDevice) (mode : DataUpdateMode) :
    ((s.setDataUpdateMode hw mode).1.succeeded = false →
      (s.setDataUpdateMode hw mode).2 = s) ∧
    ((s.setDataUpdateMode hw mode).1.succeeded = true →
      (s.setDataUpdateMode hw mode).2.dataUpdateMode = mode) ∧
    ((SensorDevice.applyUpdatedProperties hw cm s).1.succeeded = false →
      (SensorDevice.applyUpdatedProperties hw cm s).2.dataUpdateMode =
        s.dataUpdateMode) ∧
    ((SensorDevice.applyUpdatedProperties hw cm s).1.succeeded = true →
      (SensorDevice.applyUpdatedProperties hw cm s).2.dataUpdateMode =
        cm.getDataUpdateMode) := by
  refine ⟨?_, ?_, ?_, ?_⟩
  · intro h
    cases mode
    all_goals
      simp only [SensorDevice.setDataUpdateMode] at h ⊢
      split_ifs at h ⊢ <;> simp_all
  · intro h
    cases mode
    all_goals
      simp only [SensorDevice.setDataUpdateMode] at h ⊢
      split_ifs at h ⊢ <;> simp_all
  · intro h
    simp only [SensorDevice.applyUpdatedProperties,
      SensorDevice.setDataUpdateMode] at h ⊢
    cases hm : cm.getDataUpdateMode
    all_goals
      split_ifs at h ⊢ <;> simp_all [HStatus.succeeded]
  · intro h
    simp only [SensorDevice.applyUpdatedProperties,
      SensorDevice.setDataUpdateMode] at h ⊢
    cases hm : cm.getDataUpdateMode
    all_goals
      split_ifs at h ⊢ <;> simp_all [HStatus.succeeded]

/-- C7 witness: a hardware table whose eventing apply fails, a client
manager deriving `Eventing`, and a polling device: the apply fails and
the committed mode stays `Polling`. -/
theorem mode_commit_atomic_witness :
    ((SensorDevice.applyUpdatedProperties
        { setReportIntervalHr := HStatus.sOk
          setChangeSensitivityHr := HStatus.sOk
          setDeviceStateStandbyHr := HStatus.sOk
          setDeviceStatePollingHr := HStatus.sOk
          setDeviceStateEventingHr := HStatus.eUnexpected }
        { ClientManager.init 1000 10 [] with
            clientCount := 1, subscriberCount := 1 }
        { sensorDataFieldValues := []
          timestamp := 0
          sensorState := SensorState.noData
          fStateChanged := false
          dataUpdateMode := DataUpdateMode.polling
          fSensorInitialized := true
          reportManagerInterval := 1000
          newDataSignals := 0 }).1.succeeded = false →
      (SensorDevice.applyUpdatedProperties
        { setReportIntervalHr := HStatus.sOk
          setChangeSensitivityHr := HStatus.sOk
          setDeviceStateStandbyHr := HStatus.sOk
          setDeviceStatePollingHr := HStatus.sOk
          setDeviceStateEventingHr := HStatus.eUnexpected }
        { ClientManager.init 1000 10 [] with
            clientCount := 1, subscriberCount := 1 }
        { sensorDataFieldValues := []
          timestamp := 0
          sensorState := SensorState.noData
          fStateChanged := false
          dataUpdateMode := DataUpdateMode.polling
          fSensorInitialized := true
          reportManagerInterval := 1000
          newDataSignals := 0 }).2.dataUpdateMode =
        DataUpdateMode.polling) :=
  ((mode_commit_atomic
    { setReportIntervalHr := HStatus.sOk
      setChangeSensitivityHr := HStatus.sOk
      setDeviceStateStandbyHr := HStatus.sOk
      setDeviceStatePollingHr := HStatus.sOk
      setDeviceStateEventingHr := HStatus.eUnexpected }
    { ClientManager.init 1000 10 [] with
        clientCount := 1, subscriberCount := 1 }
    { sensorDataFieldValues := []
      timestamp := 0
      sensorState := SensorState.noData
      fStateChanged := false
      dataUpdateMode := DataUpdateMode.polling
      fSensorInitialized := true
      reportManagerInterval := 1000
      newDataSignals := 0 }
    DataUpdateMode.eventing).2.2.1)

/-! ## C10: throttle signalled only with subscribers -/

/-- C10: a data arrival processed by `DataAvailable` while no client is
subscribed updates the cache, timestamp and ready state but does not
signal the report manager; with at least one subscriber it signals
exactly once; and the synchronous `PollForData` path never signals the
report manager. -/
theorem data_path_signals (subs now : Nat) (vals : List (Nat × PVal))
    (requestHr : HStatus) (s : SensorDevice) :
    (subs = 0 →
      (s.dataAvailable subs now vals).2.newDataSignals = s.newDataSignals ∧
      (s.dataAvailable subs now vals).2.sensorDataFieldValues =
        mergeDataValues s.sensorDataFieldValues vals ∧
      (s.dataAvailable subs now vals).2.timestamp = now ∧
      (s.dataAvailable subs now vals).2.sensorState = SensorState.ready) ∧
    (0 < subs →
      (s.dataAvailable subs now vals).2.newDataSignals =
        s.newDataSignals + 1) ∧
    (s.pollForData requestHr now vals).2.newDataSignals =
      s.newDataSignals := by
  refine ⟨?_, ?_, ?_⟩
  · intro hz
    subst hz
    simp only [SensorDevice.dataAvailable, SensorDevice.setTimeStamp,
      SensorDevice.setState, SensorDevice.raiseDataEvent]
    split_ifs <;> simp_all
  · intro hpos
    simp only [SensorDevice.dataAvailable, SensorDevice.setTimeStamp,
      SensorDevice.setState, SensorDevice.raiseDataEvent]
    split_ifs <;> simp_all
  · simp only [SensorDevice.pollForData, SensorDevice.setTimeStamp,
      SensorDevice.setState]
    split_ifs <;> simp_all

/-- C10 witness: the theorem applied to a concrete no-subscriber state
and a one-field batch. -/
theorem data_path_signals_witness :
    ((0 : Nat) = 0 →
      (SensorDevice.dataAvailable 0 5 [(KEY_ACCEL_X, PVal.vR8 1)]
        { sensorDataFieldValues := []
          timestamp := 0
          sensorState := SensorState.noData
          fStateChanged := false
          dataUpdateMode := DataUpdateMode.polling
          fSensorInitialized := true
          reportManagerInterval := 1000
          newDataSignals := 0 }).2.newDataSignals = 0 ∧
      (SensorDevice.dataAvailable 0 5 [(KEY_ACCEL_X, PVal.vR8 1)]
        { sensorDataFieldValues := []
          timestamp := 0
          sensorState := SensorState.noData
          fStateChanged := false
          dataUpdateMode := DataUpdateMode.polling
          fSensorInitialized := true
          reportManagerInterval := 1000
          newDataSignals := 0 }).2.sensorDataFieldValues =
        mergeDataValues [] [(KEY_ACCEL_X, PVal.vR8 1)] ∧
      (SensorDevice.dataAvailable 0 5 [(KEY_ACCEL_X, PVal.vR8 1)]
        { sensorDataFieldValues := []
          timestamp := 0
          sensorState := SensorState.noData
          fStateChanged := false
          dataUpdateMode := DataUpdateMode.polling
          fSensorInitialized := true
          reportManagerInterval := 1000
          newDataSignals := 0 }).2.timestamp = 5 ∧
      (SensorDevice.dataAvailable 0 5 [(KEY_ACCEL_X, PVal.vR8 1)]
        { sensorDataFieldValues := []
          timestamp := 0
          sensorState := SensorState.noData
          fStateChanged := false
          dataUpdateMode := DataUpdateMode.polling
          fSensorInitialized := true
          reportManagerInterval := 1000
          newDataSignals := 0 }).2.sensorState = SensorState.ready) ∧
    (0 < (0 : Nat) →
      (SensorDevice.dataAvailable 0 5 [(KEY_ACCEL_X, PVal.vR8 1)]
        { sensorDataFieldValues := []
          timestamp := 0
          sensorState := SensorState.noData
          fStateChanged := false
          dataUpdateMode := DataUpdateMode.polling
          fSensorInitialized := true
          reportManagerInterval := 1000
          newDataSignals := 0 }).2.newDataSignals = 0 + 1) ∧
    (SensorDevice.pollForData HStatus.sOk 5 [(KEY_ACCEL_X, PVal.vR8 1)]
      { sensorDataFieldValues := []
        timestamp := 0
        sensorState := SensorState.noData
        fStateChanged := false
        dataUpdateMode := DataUpdateMode.polling
        fSensorInitialized := true
        reportManagerInterval := 1000
        newDataSignals := 0 }).2.newDataSignals = 0 :=
  data_path_signals 0 5 [(KEY_ACCEL_X, PVal.vR8 1)] HStatus.sOk
    { sensorDataFieldValues := []
      timestamp := 0
      sensorState := SensorState.noData
      fStateChanged := false
      dataUpdateMode := DataUpdateMode.polling
      fSensorInitialized := true
      reportManagerInterval := 1000
      newDataSignals := 0 }

/-! ## C6: out-of-range sample handling -/

theorem succeeded_sOk : HStatus.sOk.succeeded = true := rfl

theorem succeeded_sFalse : HStatus.sFalse.succeeded = true := rfl

theorem succeeded_eInvalidArg : HStatus.eInvalidArg.succeeded = false := rfl

theorem succeeded_errNotFound : HStatus.errNotFound.succeeded = false := rfl

/-- C6 counterexample: with the hardware's plus/minus 16g range, a raw
X sample of 8192 (32g) makes `RequestData` fail immediately with
`E_INVALIDARG`: the in-range Y and Z values of the same batch are never
validated, never added to the result set, and (since the request
failed) nothing is merged into the cache - contradicting the claim that
only the out-of-range field is rejected. -/
theorem requestData_discards_in_range_fields :
    requestData (-16) 16 HStatus.sOk 8192 0 0 = (HStatus.eInvalidArg, []) ∧
    ¬ (KEY_ACCEL_Y, PVal.vR8 (rawToG 0)) ∈
        (requestData (-16) 16 HStatus.sOk 8192 0 0).2 := by
  have hx : ((rawToG 8192 : Rat) < -16 ∨ (16 : Rat) < rawToG 8192) := by
    right
    norm_num [rawToG]
  constructor
  · simp [requestData, addDataFieldValue, hx, KEY_ACCEL_X, KEY_ACCEL_Y,
      KEY_ACCEL_Z, succeeded_sOk, succeeded_eInvalidArg]
  · simp [requestData, addDataFieldValue, hx, KEY_ACCEL_X, KEY_ACCEL_Y,
      KEY_ACCEL_Z, succeeded_sOk, succeeded_eInvalidArg]

/-- C6 (amended): the fields of a batch are validated in the fixed order
X, Y, Z and the first out-of-range value aborts the whole request with
`E_INVALIDARG`: fields before it stay in the result set, fields after
it are never processed, and a failed request is never handed to
`DataAvailable`, so none of the batch reaches the cache; only when all
three values are in range does the request succeed with all three
fields. -/
theorem requestData_aborts_at_first_bad_field (minG maxG : Rat)
    (readHr : HStatus) (x y z : Int) (subs now : Nat) (s : SensorDevice)
    (hr : readHr.succeeded = true) :
    (inRange minG maxG (rawToG x) → inRange minG maxG (rawToG y) →
      inRange minG maxG (rawToG z) →
      requestData minG maxG readHr x y z =
        (HStatus.sOk,
          [(KEY_ACCEL_X, PVal.vR8 (rawToG x)),
           (KEY_ACCEL_Y, PVal.vR8 (rawToG y)),
           (KEY_ACCEL_Z, PVal.vR8 (rawToG z))])) ∧
    (¬ inRange minG maxG (rawToG x) →
      requestData minG maxG readHr x y z = (HStatus.eInvalidArg, [])) ∧
    (inRange minG maxG (rawToG x) → ¬ inRange minG maxG (rawToG y) →
      requestData minG maxG readHr x y z =
        (HStatus.eInvalidArg, [(KEY_ACCEL_X, PVal.vR8 (rawToG x))])) ∧
    (inRange minG maxG (rawToG x) → inRange minG maxG (rawToG y) →
      ¬ inRange minG maxG (rawToG z) →
      requestData minG maxG readHr x y z =
        (HStatus.eInvalidArg,
          [(KEY_ACCEL_X, PVal.vR8 (rawToG x)),
           (KEY_ACCEL_Y, PVal.vR8 (rawToG y))])) ∧
    ((requestData minG maxG readHr x y z).1.succeeded = false →
      onInterruptWorkItem minG maxG readHr x y z subs now s = s) := by
  refine ⟨?_, ?_, ?_, ?_, ?_⟩
  · intro hx hy hz
    unfold inRange at hx hy hz
    simp [requestData, addDataFieldValue, hr, hx, hy, hz,
      KEY_ACCEL_X, KEY_ACCEL_Y, KEY_ACCEL_Z, alSet, succeeded_sOk]
  · intro hx
    rw [inRange, not_not] at hx
    simp [requestData, addDataFieldValue, hr, hx,
      KEY_ACCEL_X, KEY_ACCEL_Y, KEY_ACCEL_Z, succeeded_sOk,
      succeeded_eInvalidArg]
  · intro hx hy
    unfold inRange at hx
    rw [inRange, not_not] at hy
    simp [requestData, addDataFieldValue, hr, hx, hy,
      KEY_ACCEL_X, KEY_ACCEL_Y, KEY_ACCEL_Z, alSet, succeeded_sOk,
      succeeded_eInvalidArg]
  · intro hx hy hz
    unfold inRange at hx hy
    rw [inRange, not_not] at hz
    simp [requestData, addDataFieldValue, hr, hx, hy, hz,
      KEY_ACCEL_X, KEY_ACCEL_Y, KEY_ACCEL_Z, alSet, succeeded_sOk,
      succeeded_eInvalidArg]
  · intro h
    simp [onInterruptWorkItem, h]

/-- C6 witness: the amended theorem applied to a fully in-range sample:
the request succeeds with all three fields. -/
theorem requestData_aborts_at_first_bad_field_witness :
    (inRange (-16) 16 (rawToG 0) → inRange (-16) 16 (rawToG 256) →
      inRange (-16) 16 (rawToG 512) →
      requestData (-16) 16 HStatus.sOk 0 256 512 =
        (HStatus.sOk,
          [(KEY_ACCEL_X, PVal.vR8 (rawToG 0)),
           (KEY_ACCEL_Y, PVal.vR8 (rawToG 256)),
           (KEY_ACCEL_Z, PVal.vR8 (rawToG 512))])) ∧
    (¬ inRange (-16) 16 (rawToG 0) →
      requestData (-16) 16 HStatus.sOk 0 256 512 =
        (HStatus.eInvalidArg, [])) ∧
    (inRange (-16) 16 (rawToG 0) → ¬ inRange (-16) 16 (rawToG 256) →
      requestData (-16) 16 HStatus.sOk 0 256 512 =
        (HStatus.eInvalidArg, [(KEY_ACCEL_X, PVal.vR8 (rawToG 0))])) ∧
    (inRange (-16) 16 (rawToG 0) → inRange (-16) 16 (rawToG 256) →
      ¬ inRange (-16) 16 (rawToG 512) →
      requestData (-16) 16 HStatus.sOk 0 256 512 =
        (HStatus.eInvalidArg,
          [(KEY_ACCEL_X, PVal.vR8 (rawToG 0)),
           (KEY_ACCEL_Y, PVal.vR8 (rawToG 256))])) ∧
    ((requestData (-16) 16 HStatus.sOk 0 256 512).1.succeeded = false →
      onInterruptWorkItem (-16) 16 HStatus.sOk 0 256 512 0 0
        { sensorDataFieldValues := []
          timestamp := 0
          sensorState := SensorState.noData
          fStateChanged := false
          dataUpdateMode := DataUpdateMode.polling
          fSensorInitialized := true
          reportManagerInterval := 1000
          newDataSignals := 0 } =
        { sensorDataFieldValues := []
          timestamp := 0
          sensorState := SensorState.noData
          fStateChanged := false
          dataUpdateMode := DataUpdateMode.polling
          fSensorInitialized := true
          reportManagerInterval := 1000
          newDataSignals := 0 }) :=
  requestData_aborts_at_first_bad_field (-16) 16 HStatus.sOk 0 256 512 0 0
    { sensorDataFieldValues := []
      timestamp := 0
      sensorState := SensorState.noData
      fStateChanged := false
      dataUpdateMode := DataUpdateMode.polling
      fSensorInitialized := true
      reportManagerInterval := 1000
      newDataSignals := 0 }
    (by decide)

/-! ## C8: the GetSupportedEvents copy loop -/

theorem supportedEventsLoop_wraps (ev : List Nat) :
    ∀ n c buf, 0 < n → 0 < c → c + n = ULONG_MOD →
      supportedEventsLoop ev 0 c buf = (0, buf.set 0 (ev.get? 0)) := by
  intro n
  induction n with
  | zero =>
    intro c buf h0
    exact absurd h0 (by simp)
  | succ n ih =>
    intro c buf _ hc hsum
    have hcM : c < ULONG_MOD := by omega
    have hmod : c % ULONG_MOD = c := Nat.mod_eq_of_lt hcM
    rw [supportedEventsLoop, hmod, if_pos hc]
    by_cases hn : n = 0
    · subst hn
      have hc1 : c + 1 = ULONG_MOD := by omega
      rw [supportedEventsLoop, hc1]
      simp
    · have h2 := ih (c + 1) (buf.set 0 (ev.get? 0))
        (Nat.pos_of_ne_zero hn) (by omega) (by omega)
      rw [h2, List.set_set]

/-- C8: the copy loop of `GetSupportedEvents` increments `count` instead
of `i`, so for the accelerometer's two declared events it does not run
two iterations copying both GUIDs: it writes only slot 0, spins until the
32-bit `count` wraps to 0, and returns event count 0 instead of 2 - the
in-code claim (returned count equals the declared count, and the i-th
entry holds the i-th GUID) is violated at every sensor with at least one
declared event. -/
theorem getSupportedEvents_wrong_loop :
    getSupportedEvents [1, 2] = (HStatus.sOk, 0, [some 1, none]) ∧
    ¬ (getSupportedEvents [1, 2]).2.1 = 2 ∧
    ¬ (getSupportedEvents [1, 2]).2.2.get? 1 = some (some 2) := by
  have h := supportedEventsLoop_wraps [1, 2] (ULONG_MOD - 2) 2 [none, none]
    (by norm_num [ULONG_MOD]) (by norm_num) (by norm_num [ULONG_MOD])
  have h1 : getSupportedEvents [1, 2] = (HStatus.sOk, 0, [some 1, none]) := by
    show (HStatus.sOk, (supportedEventsLoop [1, 2] 0 2 [none, none]).1,
      (supportedEventsLoop [1, 2] 0 2 [none, none]).2) =
      (HStatus.sOk, 0, [some 1, none])
    rw [h]
    rfl
  refine ⟨h1, ?_, ?_⟩
  · rw [h1]
    decide
  · rw [h1]
    decide

/-! ## C9: the report throttle -/

theorem spacedFrom_spaced :
    ∀ (l : List (Nat × Nat)) (base : Nat), SpacedFrom base l → Spaced l := by
  intro l
  induction l with
  | nil =>
    intro base h
    trivial
  | cons hd tl ih =>
    rcases hd with ⟨t1, i1⟩
    intro base h
    cases tl with
    | nil => trivial
    | cons hd2 tl2 =>
      rcases hd2 with ⟨t2, i2⟩
      simp only [SpacedFrom] at h
      simp only [Spaced]
      exact ⟨h.2.1, ih t1 h.2⟩

theorem throttleRun_spacedFrom :
    ∀ (evs : List ThrottleEvent) (s : Throttle),
      SpacedFrom s.lastReportTime (throttleRun s evs).2 := by
  intro evs
  induction evs with
  | nil =>
    intro s
    simp [throttleRun, SpacedFrom]
  | cons e rest ih =>
    intro s
    cases e with
    | wake now =>
      by_cases hg : s.active = true ∧ s.pending = true ∧
          s.lastReportTime + s.reportInterval ≤ now
      · have h2 := ih { s with pending := false, lastReportTime := now }
        simp only [throttleRun, throttleStep, if_pos hg, Option.toList,
          List.cons_append, List.nil_append, SpacedFrom]
        refine ⟨hg.2.2, ?_⟩
        simpa using h2
      · have h2 := ih s
        simp only [throttleRun, throttleStep, if_neg hg, Option.toList,
          List.nil_append]
        simpa using h2
    | setInterval v =>
      have h2 := ih { s with reportInterval := v }
      simp only [throttleRun, throttleStep, Option.toList, List.nil_append]
      simpa using h2
    | notify =>
      have h2 := ih { s with pending := true }
      simp only [throttleRun, throttleStep, Option.toList, List.nil_append]
      simpa using h2
    | stop =>
      have h2 := ih { s with active := false }
      simp only [throttleRun, throttleStep, Option.toList, List.nil_append]
      simpa using h2

theorem throttleRun_append :
    ∀ (l1 l2 : List ThrottleEvent) (s : Throttle),
      throttleRun s (l1 ++ l2) =
        ((throttleRun (throttleRun s l1).1 l2).1,
          (throttleRun s l1).2 ++ (throttleRun (throttleRun s l1).1 l2).2) := by
  intro l1
  induction l1 with
  | nil =>
    intro l2 s
    simp [throttleRun]
  | cons e rest ih =>
    intro l2 s
    simp only [List.cons_append, throttleRun, List.append_eq]
    rw [ih]
    simp [List.append_assoc]

theorem throttleRun_inactive :
    ∀ (evs : List ThrottleEvent) (s : Throttle), s.active = false →
      (throttleRun s evs).2 = [] ∧ (throttleRun s evs).1.active = false := by
  intro evs
  induction evs with
  | nil =>
    intro s h
    simp [throttleRun, h]
  | cons e rest ih =>
    intro s h
    cases e with
    | wake now =>
      have hg : ¬(s.active = true ∧ s.pending = true ∧
          s.lastReportTime + s.reportInterval ≤ now) := by
        simp [h]
      have h2 := ih s h
      simp only [throttleRun, throttleStep, if_neg hg, Option.toList,
        List.nil_append]
      simpa using h2
    | setInterval v =>
      have h2 := ih { s with reportInterval := v } h
      simp only [throttleRun, throttleStep, Option.toList, List.nil_append]
      simpa using h2
    | notify =>
      have h2 := ih { s with pending := true } h
      simp only [throttleRun, throttleStep, Option.toList, List.nil_append]
      simpa using h2
    | stop =>
      have h2 := ih { s with active := false } rfl
      simp only [throttleRun, throttleStep, Option.toList, List.nil_append]
      simpa using h2

/-- C9: in every run of the throttle loop, consecutive emitted reports
are separated by at least the report interval in effect at the later
emission, and once a `stop` event is processed no further report is
emitted regardless of the pending signals that follow. (Modelled from
the spec: `ReportManager.cpp` is not among the provided sources.) -/
theorem reportThrottle_spacing_and_stop (s : Throttle)
    (evs evs1 evs2 : List ThrottleEvent) :
    Spaced (throttleRun s evs).2 ∧
    (throttleRun s (evs1 ++ ThrottleEvent.stop :: evs2)).2 =
      (throttleRun s (evs1 ++ [ThrottleEvent.stop])).2 := by
  constructor
  · exact spacedFrom_spaced _ _ (throttleRun_spacedFrom evs s)
  · have e1 : evs1 ++ ThrottleEvent.stop :: evs2 =
        (evs1 ++ [ThrottleEvent.stop]) ++ evs2 := by
      simp
    rw [e1, throttleRun_append]
    have hstop :
        (throttleRun s (evs1 ++ [ThrottleEvent.stop])).1.active = false := by
      rw [throttleRun_append]
      simp [throttleRun, throttleStep]
    have h2 := throttleRun_inactive evs2 _ hstop
    simp [h2.1]

/-! ## Arbitration machinery: the report-interval fold -/

theorem foldRI_spec (ds : List Nat) : ∀ (m : Nat) (ex : Bool),
    (ds.filter (fun d => decide (d ≠ 0) && decide (d < m)) = [] →
      foldRI ds m ex = (m, ex)) ∧
    (ds.filter (fun d => decide (d ≠ 0) && decide (d < m)) ≠ [] →
      (foldRI ds m ex).1 ∈
        ds.filter (fun d => decide (d ≠ 0) && decide (d < m)) ∧
      (∀ d ∈ ds.filter (fun d => decide (d ≠ 0) && decide (d < m)),
        (foldRI ds m ex).1 ≤ d) ∧
      (foldRI ds m ex).2 = true) := by
  induction ds with
  | nil =>
    intro m ex
    constructor
    · intro _
      rfl
    · intro h
      exact absurd rfl h
  | cons d rest ih =>
    intro m ex
    by_cases hd : d ≠ 0 ∧ d < m
    · have hpred : (decide (d ≠ 0) && decide (d < m)) = true := by
        simp only [Bool.and_eq_true, decide_eq_true_eq]
        exact hd
      have hfilter :
          (d :: rest).filter (fun d => decide (d ≠ 0) && decide (d < m)) =
            d :: rest.filter (fun d => decide (d ≠ 0) && decide (d < m)) :=
        List.filter_cons_of_pos hpred
      have hfold : foldRI (d :: rest) m ex = foldRI rest d true := by
        simp [foldRI, hd]
      by_cases hrest :
          rest.filter (fun x => decide (x ≠ 0) && decide (x < d)) = []
      · have h1 := (ih d true).1 hrest
        constructor
        · intro hc
          rw [hfilter] at hc
          exact absurd hc (by simp)
        · intro _
          rw [hfold, h1, hfilter]
          refine ⟨List.mem_cons_self _ _, ?_, rfl⟩
          intro x hx
          rcases List.mem_cons.mp hx with hx | hx
          · omega
          · rw [List.mem_filter] at hx
            have hx1 : x ≠ 0 := by simpa using (Bool.and_elim_left hx.2)
            have hx2 : x < m := by simpa using (Bool.and_elim_right hx.2)
            by_cases hxd : x < d
            · have hxmem : x ∈ rest.filter
                  (fun x => decide (x ≠ 0) && decide (x < d)) :=
                List.mem_filter.mpr ⟨hx.1, by
                  simp only [Bool.and_eq_true, decide_eq_true_eq]
                  exact ⟨hx1, hxd⟩⟩
              rw [hrest] at hxmem
              exact absurd hxmem (by simp)
            · omega
      · have h2 := (ih d true).2 hrest
        constructor
        · intro hc
          rw [hfilter] at hc
          exact absurd hc (by simp)
        · intro _
          rw [hfold, hfilter]
          have hmem := h2.1
          rw [List.mem_filter] at hmem
          have hm1 : (foldRI rest d true).1 ≠ 0 := by
            simpa using (Bool.and_elim_left hmem.2)
          have hm2 : (foldRI rest d true).1 < d := by
            simpa using (Bool.and_elim_right hmem.2)
          refine ⟨?_, ?_, h2.2.2⟩
          · refine List.mem_cons.mpr (Or.inr (List.mem_filter.mpr
              ⟨hmem.1, ?_⟩))
            simp only [Bool.and_eq_true, decide_eq_true_eq]
            exact ⟨hm1, by omega⟩
          · intro x hx
            rcases List.mem_cons.mp hx with hx | hx
            · omega
            · rw [List.mem_filter] at hx
              have hx1 : x ≠ 0 := by simpa using (Bool.and_elim_left hx.2)
              have hx2 : x < m := by simpa using (Bool.and_elim_right hx.2)
              by_cases hxd : x < d
              · refine h2.2.1 x (List.mem_filter.mpr ⟨hx.1, ?_⟩)
                simp only [Bool.and_eq_true, decide_eq_true_eq]
                exact ⟨hx1, hxd⟩
              · omega
    · have hpred : (decide (d ≠ 0) && decide (d < m)) = false := by
        by_cases h0 : d = 0
        · simp [h0]
        · have hnlt : ¬ d < m := fun hlt => hd ⟨h0, hlt⟩
          simp [h0, hnlt]
      have hfilter :
          (d :: rest).filter (fun d => decide (d ≠ 0) && decide (d < m)) =
            rest.filter (fun d => decide (d ≠ 0) && decide (d < m)) :=
        List.filter_cons_of_neg (by
          show ¬((decide (d ≠ 0) && decide (d < m)) = true)
          rw [hpred]
          simp)
      have hfold : foldRI (d :: rest) m ex = foldRI rest m ex := by
        simp [foldRI, hd]
      rw [hfilter, hfold]
      exact ih m ex

/-! ## Arbitration machinery: PVal and combineMin facts -/

theorem withPayload_vt (v : PVal) (q : Rat) : (v.withPayload q).vt = v.vt := by
  cases v <;> rfl

theorem withPayload_isNumeric (v : PVal) (q : Rat) :
    (v.withPayload q).isNumeric = v.isNumeric := by
  cases v <;> rfl

theorem withPayload_payload {v : PVal} (hv : v.isNumeric = true) (q : Rat) :
    (v.withPayload q).payload = q := by
  cases v <;> simp [PVal.isNumeric] at hv <;> rfl

theorem minFoldStep_ok {varMin : PVal}
    (h : varMin = PVal.vNull ∨ varMin.isNumeric = true) (v : PVal) :
    minFoldStep varMin v = (HStatus.sOk, combineMin varMin v) := by
  cases varMin <;>
    simp [minFoldStep, combineMin, PVal.isNumeric] at h ⊢

theorem combineMin_vNull (v : PVal) : combineMin PVal.vNull v = v := rfl

theorem combineMin_isNumeric (r v : PVal) (hv : v.isNumeric = true) :
    (combineMin r v).isNumeric = true := by
  cases r
  · simpa [combineMin] using hv
  · show (v.withPayload _).isNumeric = true
    rw [withPayload_isNumeric]
    exact hv
  · show (v.withPayload _).isNumeric = true
    rw [withPayload_isNumeric]
    exact hv
  · simpa [combineMin] using hv

theorem combineMin_vt (r v : PVal) : (combineMin r v).vt = v.vt := by
  cases r
  · rfl
  · exact withPayload_vt _ _
  · exact withPayload_vt _ _
  · rfl

theorem combineMin_payload {r v : PVal} (hr : r.isNumeric = true)
    (hv : v.isNumeric = true) :
    (combineMin r v).payload = min r.payload v.payload := by
  cases r
  · simp [PVal.isNumeric] at hr
  · show (v.withPayload _).payload = _
    rw [withPayload_payload hv]
    rfl
  · show (v.withPayload _).payload = _
    rw [withPayload_payload hv]
    rfl
  · simp [PVal.isNumeric] at hr

theorem foldl_combineMin_payload :
    ∀ (l : List PVal) (r : PVal), r.isNumeric = true →
      (∀ v ∈ l, v.isNumeric = true) →
      (l.foldl combineMin r).isNumeric = true ∧
      (l.foldl combineMin r).payload =
        (l.map PVal.payload).foldl min r.payload := by
  intro l
  induction l with
  | nil =>
    intro r hr _
    exact ⟨hr, rfl⟩
  | cons v vs ih =>
    intro r hr hl
    have hv : v.isNumeric = true := hl v (List.mem_cons_self _ _)
    have hc : (combineMin r v).isNumeric = true :=
      combineMin_isNumeric r v hv
    have h2 := ih (combineMin r v) hc
      (fun x hx => hl x (List.mem_cons_of_mem _ hx))
    refine ⟨h2.1, ?_⟩
    rw [List.foldl_cons, h2.2, List.map_cons, List.foldl_cons,
      combineMin_payload hr hv]

theorem foldl_combineMin_vt :
    ∀ (l : List PVal) (r : PVal) (T : VType),
      (r = PVal.vNull ∨ r.isNumeric = true) →
      r.vt = T → (∀ v ∈ l, v.isNumeric = true ∧ v.vt = T) →
      (l.foldl combineMin r).vt = T := by
  intro l
  induction l with
  | nil =>
    intro r T _ hr _
    exact hr
  | cons v vs ih =>
    intro r T hr _ hl
    have hv := hl v (List.mem_cons_self _ _)
    refine ih (combineMin r v) T ?_ ?_
      (fun x hx => hl x (List.mem_cons_of_mem _ hx))
    · exact Or.inr (combineMin_isNumeric r v hv.1)
    · rw [combineMin_vt]
      exact hv.2

theorem foldl_min_rat (qs : List Rat) : ∀ (a : Rat),
    (qs.foldl min a = a ∨ qs.foldl min a ∈ qs) ∧
    qs.foldl min a ≤ a ∧ (∀ q ∈ qs, qs.foldl min a ≤ q) := by
  induction qs with
  | nil =>
    intro a
    simp
  | cons q qs ih =>
    intro a
    have h := ih (min a q)
    refine ⟨?_, ?_, ?_⟩
    · rw [List.foldl_cons]
      rcases h.1 with h1 | h1
      · rcases min_choice a q with hm | hm
        · exact Or.inl (by rw [h1, hm])
        · exact Or.inr (by rw [h1, hm]; exact List.mem_cons_self _ _)
      · exact Or.inr (List.mem_cons_of_mem _ h1)
    · rw [List.foldl_cons]
      exact le_trans h.2.1 (min_le_left _ _)
    · intro x hx
      rw [List.foldl_cons]
      rcases List.mem_cons.mp hx with hx | hx
      · rw [hx] at *
        exact le_trans h.2.1 (min_le_right _ _)
      · exact h.2.2 x hx

/-! ## Arbitration machinery: the sensitivity folds -/

theorem clientOv_cons_self {k : Nat} {v : PVal} {rest : AList PVal} :
    clientOv ((k, v) :: rest) k = if v = PVal.vNull then none else some v := by
  simp [clientOv, alGet]

theorem clientOv_cons_ne {k k' : Nat} {v : PVal} {rest : AList PVal}
    (h : k ≠ k') : clientOv ((k, v) :: rest) k' = clientOv rest k' := by
  simp [clientOv, alGet, h]

theorem clientOv_not_mem {cvals : AList PVal} {k : Nat}
    (h : ¬ k ∈ alKeys cvals) : clientOv cvals k = none := by
  simp [clientOv, alGet_eq_none_iff.mpr h]

theorem foldSensList_spec (defaults : AList PVal) :
    ∀ (cvals ms : AList PVal),
      alKeys ms = alKeys defaults →
      (∀ p ∈ ms, p.2 = PVal.vNull ∨ numTagOK defaults p.1 p.2 = true) →
      (∀ p ∈ cvals, clientTagOK defaults p.1 p.2 = true) →
      (alKeys cvals).Nodup →
      (foldSensList ms cvals).1 = HStatus.sOk ∧
      alKeys (foldSensList ms cvals).2 = alKeys defaults ∧
      (∀ p ∈ (foldSensList ms cvals).2,
        p.2 = PVal.vNull ∨ numTagOK defaults p.1 p.2 = true) ∧
      (∀ k, alGet (foldSensList ms cvals).2 k =
        match clientOv cvals k with
        | none => alGet ms k
        | some v => (alGet ms k).map (fun r => combineMin r v)) := by
  intro cvals
  induction cvals with
  | nil =>
    intro ms hkeys hvals _ _
    refine ⟨rfl, hkeys, hvals, ?_⟩
    intro k
    simp [foldSensList, clientOv, alGet]
  | cons p rest ih =>
    rcases p with ⟨k, v⟩
    intro ms hkeys hvals hcv hnodup
    have hcvk : clientTagOK defaults k v = true :=
      hcv (k, v) (List.mem_cons_self _ _)
    have hcvrest : ∀ p ∈ rest, clientTagOK defaults p.1 p.2 = true :=
      fun p hp => hcv p (List.mem_cons_of_mem _ hp)
    have hknotin : ¬ k ∈ alKeys rest := by
      rw [alKeys_cons] at hnodup
      exact (List.nodup_cons.mp hnodup).1
    have hnodup2 : (alKeys rest).Nodup := by
      rw [alKeys_cons] at hnodup
      exact (List.nodup_cons.mp hnodup).2
    by_cases hv : v = PVal.vNull
    · have hfold : foldSensList ms ((k, v) :: rest) = foldSensList ms rest := by
        simp [foldSensList, hv]
      have h2 := ih ms hkeys hvals hcvrest hnodup2
      rw [hfold]
      refine ⟨h2.1, h2.2.1, h2.2.2.1, ?_⟩
      intro k'
      by_cases hk : k = k'
      · subst hk
        rw [clientOv_cons_self, if_pos hv]
        have h3 := h2.2.2.2 k
        rw [clientOv_not_mem hknotin] at h3
        simpa using h3
      · rw [clientOv_cons_ne hk]
        exact h2.2.2.2 k'
    · rw [clientTagOK, if_neg hv] at hcvk
      have hd : ∃ d, alGet defaults k = some d ∧ v.isNumeric = true ∧
          v.vt = d.vt := by
        rcases hget : alGet defaults k with _ | d
        · simp [numTagOK, hget] at hcvk
        · simp only [numTagOK, hget, Bool.and_eq_true,
            decide_eq_true_eq] at hcvk
          exact ⟨d, rfl, hcvk.1, hcvk.2⟩
      rcases hd with ⟨d, hgetd, hvnum, hvvt⟩
      have hkdef : k ∈ alKeys defaults := by
        rw [← alGet_isSome_iff_mem, hgetd]
        rfl
      have hkms : k ∈ alKeys ms := by
        rw [hkeys]
        exact hkdef
      have hms : ∃ varMin, alGet ms k = some varMin := by
        rcases hg : alGet ms k with _ | w
        · rw [alGet_eq_none_iff] at hg
          exact absurd hkms hg
        · exact ⟨w, rfl⟩
      rcases hms with ⟨varMin, hgetm⟩
      have hvm : varMin = PVal.vNull ∨ numTagOK defaults k varMin = true :=
        hvals (k, varMin) (alGet_mem hgetm)
      have hvmok : varMin = PVal.vNull ∨ varMin.isNumeric = true := by
        rcases hvm with h | h
        · exact Or.inl h
        · right
          rw [numTagOK, hgetd] at h
          simp only [Bool.and_eq_true, decide_eq_true_eq] at h
          exact h.1
      have hstep := minFoldStep_ok hvmok v
      have hfold : foldSensList ms ((k, v) :: rest) =
          foldSensList (alSet ms k (combineMin varMin v)) rest := by
        rw [foldSensList, if_neg hv, hgetm]
        show (let r := minFoldStep varMin v
          if r.1.succeeded = true then foldSensList (alSet ms k r.2) rest
          else (r.1, ms)) =
          foldSensList (alSet ms k (combineMin varMin v)) rest
        rw [hstep]
        simp [succeeded_sOk]
      set comb := combineMin varMin v with hcomb
      have hcombnum : comb.isNumeric = true :=
        combineMin_isNumeric varMin v hvnum
      have hcombvt : comb.vt = d.vt := by
        rw [hcomb, combineMin_vt]
        exact hvvt
      have hms2keys : alKeys (alSet ms k comb) = alKeys defaults := by
        rw [alKeys_alSet_of_mem comb hkms]
        exact hkeys
      have hms2vals : ∀ p ∈ alSet ms k comb,
          p.2 = PVal.vNull ∨ numTagOK defaults p.1 p.2 = true := by
        intro p hp
        rcases mem_alSet p hp with h | h
        · right
          rw [h]
          simp only [numTagOK, hgetd, Bool.and_eq_true, decide_eq_true_eq]
          exact ⟨hcombnum, hcombvt⟩
        · exact hvals p h
      have h2 := ih (alSet ms k comb) hms2keys hms2vals hcvrest hnodup2
      rw [hfold]
      refine ⟨h2.1, h2.2.1, h2.2.2.1, ?_⟩
      intro k'
      by_cases hk : k = k'
      · subst hk
        rw [clientOv_cons_self, if_neg hv]
        have h3 := h2.2.2.2 k
        rw [clientOv_not_mem hknotin] at h3
        rw [h3, alGet_alSet_self, hgetm]
        rfl
      · rw [clientOv_cons_ne hk]
        have h3 := h2.2.2.2 k'
        rw [alGet_alSet_ne ms _ (fun hh => hk hh.symm)] at h3
        exact h3

theorem overridesFor_cons (id : Nat) (e : ClientEntry)
    (rest : AList ClientEntry) (k : Nat) :
    overridesFor ((id, e) :: rest) k =
      match clientOv e.pDesiredSensitivityValues k with
      | none => overridesFor rest k
      | some v => v :: overridesFor rest k := by
  rw [overridesFor, List.filterMap_cons]
  cases clientOv e.pDesiredSensitivityValues k <;> rfl

theorem recalcLoop_spec (defaults : AList PVal) :
    ∀ (clients : AList ClientEntry) (ms : AList PVal) (mri : Nat) (ex : Bool),
      alKeys ms = alKeys defaults →
      (∀ p ∈ ms, p.2 = PVal.vNull ∨ numTagOK defaults p.1 p.2 = true) →
      (∀ c ∈ clients, (alKeys c.2.pDesiredSensitivityValues).Nodup ∧
        ∀ p ∈ c.2.pDesiredSensitivityValues,
          clientTagOK defaults p.1 p.2 = true) →
      (recalcLoop clients ms mri ex).1 = HStatus.sOk ∧
      alKeys (recalcLoop clients ms mri ex).2.1 = alKeys defaults ∧
      (∀ p ∈ (recalcLoop clients ms mri ex).2.1,
        p.2 = PVal.vNull ∨ numTagOK defaults p.1 p.2 = true) ∧
      (∀ k, alGet (recalcLoop clients ms mri ex).2.1 k =
        (alGet ms k).map
          (fun r => (overridesFor clients k).foldl combineMin r)) ∧
      ((recalcLoop clients ms mri ex).2.2.1,
        (recalcLoop clients ms mri ex).2.2.2) =
        foldRI (clients.map (fun c => c.2.desiredReportInterval)) mri ex := by
  intro clients
  induction clients with
  | nil =>
    intro ms mri ex hkeys hvals _
    refine ⟨rfl, hkeys, hvals, ?_, rfl⟩
    intro k
    show alGet ms k =
      (alGet ms k).map (fun r => (overridesFor [] k).foldl combineMin r)
    cases alGet ms k <;> simp [overridesFor]
  | cons c rest ih =>
    rcases c with ⟨id, e⟩
    intro ms mri ex hkeys hvals hclients
    have hce := hclients (id, e) (List.mem_cons_self _ _)
    have hcrest : ∀ c ∈ rest, (alKeys c.2.pDesiredSensitivityValues).Nodup ∧
        ∀ p ∈ c.2.pDesiredSensitivityValues,
          clientTagOK defaults p.1 p.2 = true :=
      fun c hc => hclients c (List.mem_cons_of_mem _ hc)
    have hf := foldSensList_spec defaults e.pDesiredSensitivityValues ms
      hkeys hvals hce.2 hce.1
    have hred : recalcLoop ((id, e) :: rest) ms mri ex =
        if e.desiredReportInterval ≠ CURRENT_REPORT_INTERVAL_NOT_SET ∧
            e.desiredReportInterval < mri then
          recalcLoop rest (foldSensList ms e.pDesiredSensitivityValues).2
            e.desiredReportInterval true
        else
          recalcLoop rest (foldSensList ms e.pDesiredSensitivityValues).2
            mri ex := by
      simp only [recalcLoop]
      rw [hf.1]
      simp [succeeded_sOk]
    have hcompose : ∀ (mri' : Nat) (ex' : Bool),
        (∀ k, alGet (recalcLoop rest
            (foldSensList ms e.pDesiredSensitivityValues).2 mri' ex').2.1 k =
          (alGet ms k).map
            (fun r => (overridesFor ((id, e) :: rest) k).foldl combineMin r)) := by
      intro mri' ex' k
      have h2 := ih (foldSensList ms e.pDesiredSensitivityValues).2 mri' ex'
        hf.2.1 hf.2.2.1 hcrest
      rw [h2.2.2.2.1 k, hf.2.2.2 k, overridesFor_cons]
      cases hov : clientOv e.pDesiredSensitivityValues k
      · rfl
      · cases alGet ms k <;> simp [List.foldl_cons]
    have hri0 : ((id, e) : Nat × ClientEntry).2.desiredReportInterval ≠ 0 ∧
        ((id, e) : Nat × ClientEntry).2.desiredReportInterval < mri ↔
        e.desiredReportInterval ≠ CURRENT_REPORT_INTERVAL_NOT_SET ∧
        e.desiredReportInterval < mri := Iff.rfl
    by_cases hri : e.desiredReportInterval ≠ CURRENT_REPORT_INTERVAL_NOT_SET ∧
        e.desiredReportInterval < mri
    · rw [hred, if_pos hri]
      have h2 := ih (foldSensList ms e.pDesiredSensitivityValues).2
        e.desiredReportInterval true hf.2.1 hf.2.2.1 hcrest
      refine ⟨h2.1, h2.2.1, h2.2.2.1, hcompose _ _, ?_⟩
      rw [h2.2.2.2.2, List.map_cons, foldRI, if_pos (hri0.mpr hri)]
    · rw [hred, if_neg hri]
      have h2 := ih (foldSensList ms e.pDesiredSensitivityValues).2
        mri ex hf.2.1 hf.2.2.1 hcrest
      refine ⟨h2.1, h2.2.1, h2.2.2.1, hcompose _ _, ?_⟩
      rw [h2.2.2.2.2, List.map_cons, foldRI,
        if_neg (fun hc => hri (hri0.mp hc))]

theorem fillDefaultsLoop_spec (defaults : AList PVal)
    (hdef : ∀ p ∈ defaults, p.2.isNumeric = true) :
    ∀ (ks : List Nat) (ms : AList PVal),
      alKeys ms = alKeys defaults →
      (∀ p ∈ ms, p.2 = PVal.vNull ∨ numTagOK defaults p.1 p.2 = true) →
      (∀ k ∈ ks, k ∈ alKeys defaults) →
      ks.Nodup →
      (fillDefaultsLoop defaults ks ms).1 = HStatus.sOk ∧
      (∀ k ∈ ks,
        alGet (fillDefaultsLoop defaults ks ms).2 k =
          (if alGet ms k = some PVal.vNull then alGet defaults k
           else alGet ms k)) ∧
      (∀ k, ¬ k ∈ ks →
        alGet (fillDefaultsLoop defaults ks ms).2 k = alGet ms k) := by
  intro ks
  induction ks with
  | nil =>
    intro ms _ _ _ _
    exact ⟨rfl, by simp, fun k _ => rfl⟩
  | cons k rest ih =>
    intro ms hkeys hvals hks hnodup
    have hkdef : k ∈ alKeys defaults := hks k (List.mem_cons_self _ _)
    have hkrest : ∀ x ∈ rest, x ∈ alKeys defaults :=
      fun x hx => hks x (List.mem_cons_of_mem _ hx)
    have hknotin : ¬ k ∈ rest := (List.nodup_cons.mp hnodup).1
    have hnodup2 : rest.Nodup := (List.nodup_cons.mp hnodup).2
    have hkms : k ∈ alKeys ms := by
      rw [hkeys]
      exact hkdef
    have hms : ∃ w, alGet ms k = some w := by
      rcases hg : alGet ms k with _ | w
      · rw [alGet_eq_none_iff] at hg
        exact absurd hkms hg
      · exact ⟨w, rfl⟩
    rcases hms with ⟨w, hgetw⟩
    have hd : ∃ d, alGet defaults k = some d := by
      rcases hg : alGet defaults k with _ | d
      · rw [alGet_eq_none_iff] at hg
        exact absurd hkdef hg
      · exact ⟨d, rfl⟩
    rcases hd with ⟨d, hgetd⟩
    by_cases hw : w = PVal.vNull
    · subst hw
      have hred : fillDefaultsLoop defaults (k :: rest) ms =
          fillDefaultsLoop defaults rest (alSet ms k d) := by
        rw [fillDefaultsLoop, hgetw]
        show (if PVal.vNull = PVal.vNull then
            match alGet defaults k with
            | none => (HStatus.errNotFound, ms)
            | some dv => fillDefaultsLoop defaults rest (alSet ms k dv)
          else fillDefaultsLoop defaults rest ms) =
          fillDefaultsLoop defaults rest (alSet ms k d)
        rw [if_pos rfl, hgetd]
      have hms2keys : alKeys (alSet ms k d) = alKeys defaults := by
        rw [alKeys_alSet_of_mem d hkms]
        exact hkeys
      have hms2vals : ∀ p ∈ alSet ms k d,
          p.2 = PVal.vNull ∨ numTagOK defaults p.1 p.2 = true := by
        intro p hp
        rcases mem_alSet p hp with h | h
        · right
          rw [h]
          simp only [numTagOK, hgetd, Bool.and_eq_true, decide_eq_true_eq]
          exact ⟨hdef (k, d) (alGet_mem hgetd), trivial⟩
        · exact hvals p h
      have h2 := ih (alSet ms k d) hms2keys hms2vals hkrest hnodup2
      rw [hred]
      refine ⟨h2.1, ?_, ?_⟩
      · intro x hx
        rcases List.mem_cons.mp hx with hx | hx
        · subst hx
          rw [h2.2.2 x hknotin, alGet_alSet_self, hgetw, if_pos rfl, hgetd]
        · have hxk : x ≠ k := fun hh => hknotin (hh ▸ hx)
          rw [h2.2.1 x hx, alGet_alSet_ne ms d hxk]
      · intro x hx
        have hxk : x ≠ k := fun hh => hx (List.mem_cons.mpr (Or.inl hh))
        have hxrest : ¬ x ∈ rest :=
          fun hh => hx (List.mem_cons.mpr (Or.inr hh))
        rw [h2.2.2 x hxrest, alGet_alSet_ne ms d hxk]
    · have hred : fillDefaultsLoop defaults (k :: rest) ms =
          fillDefaultsLoop defaults rest ms := by
        rw [fillDefaultsLoop, hgetw]
        show (if w = PVal.vNull then
            match alGet defaults k with
            | none => (HStatus.errNotFound, ms)
            | some dv => fillDefaultsLoop defaults rest (alSet ms k dv)
          else fillDefaultsLoop defaults rest ms) =
          fillDefaultsLoop defaults rest ms
        rw [if_neg hw]
      have h2 := ih ms hkeys hvals hkrest hnodup2
      rw [hred]
      refine ⟨h2.1, ?_, ?_⟩
      · intro x hx
        rcases List.mem_cons.mp hx with hx | hx
        · subst hx
          have hnn : ¬ alGet ms x = some PVal.vNull := by
            rw [hgetw]
            intro hc
            exact hw (by injection hc)
          rw [h2.2.2 x hknotin, if_neg hnn]
        · exact h2.2.1 x hx
      · intro x hx
        have hxrest : ¬ x ∈ rest :=
          fun hh => hx (List.mem_cons.mpr (Or.inr hh))
        exact h2.2.2 x hxrest

theorem mem_resetMinSens {m : AList PVal} {p : Nat × PVal}
    (hp : p ∈ resetMinSens m) : p.2 = PVal.vNull := by
  rw [resetMinSens, List.mem_map] at hp
  rcases hp with ⟨q, _, hq⟩
  rw [← hq]

theorem alGet_some_of_mem {β : Type} {m : AList β} {k : Nat}
    (h : k ∈ alKeys m) : ∃ v, alGet m k = some v := by
  rcases hg : alGet m k with _ | v
  · rw [alGet_eq_none_iff] at hg
    exact absurd h hg
  · exact ⟨v, rfl⟩

theorem isNumeric_ne_vNull {v : PVal} (h : v.isNumeric = true) :
    v ≠ PVal.vNull := by
  cases v <;> simp [PVal.isNumeric] at h ⊢

theorem overridesFor_wf {defaults : AList PVal} {clients : AList ClientEntry}
    (hcl : ∀ c ∈ clients, (alKeys c.2.pDesiredSensitivityValues).Nodup ∧
      ∀ p ∈ c.2.pDesiredSensitivityValues,
        clientTagOK defaults p.1 p.2 = true) (k : Nat) :
    ∀ v ∈ overridesFor clients k,
      ∃ d, alGet defaults k = some d ∧ v.isNumeric = true ∧ v.vt = d.vt := by
  intro v hv
  rw [overridesFor, List.mem_filterMap] at hv
  rcases hv with ⟨c, hc, hov⟩
  rw [clientOv] at hov
  rcases hg : alGet c.2.pDesiredSensitivityValues k with _ | w
  · rw [hg] at hov
    simp at hov
  · rw [hg] at hov
    have hov2 : (if w = PVal.vNull then none else some w) = some v := hov
    by_cases hw : w = PVal.vNull
    · rw [if_pos hw] at hov2
      simp at hov2
    · rw [if_neg hw] at hov2
      have hvw : v = w := by
        injection hov2.symm
      subst hvw
      have htag := (hcl c hc).2 (k, v) (alGet_mem hg)
      rw [clientTagOK, if_neg hw] at htag
      rcases hgd : alGet defaults k with _ | d
      · simp [numTagOK, hgd] at htag
      · simp only [numTagOK, hgd, Bool.and_eq_true, decide_eq_true_eq] at htag
        exact ⟨d, rfl, htag.1, htag.2⟩

theorem recalculateProperties_spec (s : ClientManager)
    (h1 : alKeys s.minSensitivityValues = alKeys s.defaultSensitivityValues)
    (h2 : (alKeys s.defaultSensitivityValues).Nodup)
    (h3 : ∀ p ∈ s.defaultSensitivityValues, p.2.isNumeric = true)
    (h5 : ∀ c ∈ s.pClientList,
      (alKeys c.2.pDesiredSensitivityValues).Nodup ∧
      ∀ p ∈ c.2.pDesiredSensitivityValues,
        clientTagOK s.defaultSensitivityValues p.1 p.2 = true) :
    (s.recalculateProperties).1 = HStatus.sOk ∧
    (s.recalculateProperties).2.pClientList = s.pClientList ∧
    (s.recalculateProperties).2.clientCount = s.clientCount ∧
    (s.recalculateProperties).2.subscriberCount = s.subscriberCount ∧
    (s.recalculateProperties).2.defaultReportInterval =
      s.defaultReportInterval ∧
    (s.recalculateProperties).2.defaultSensitivityValues =
      s.defaultSensitivityValues ∧
    ArbitratedIntervalSpec (s.recalculateProperties).2 ∧
    ArbitratedSensitivitySpec (s.recalculateProperties).2 := by
  have hms0keys : alKeys (resetMinSens s.minSensitivityValues) =
      alKeys s.defaultSensitivityValues := by
    rw [alKeys_resetMinSens]
    exact h1
  have hms0vals : ∀ p ∈ resetMinSens s.minSensitivityValues,
      p.2 = PVal.vNull ∨ numTagOK s.defaultSensitivityValues p.1 p.2 = true :=
    fun p hp => Or.inl (mem_resetMinSens hp)
  have hrc := recalcLoop_spec s.defaultSensitivityValues s.pClientList
    (resetMinSens s.minSensitivityValues) ULONG_MAX false
    hms0keys hms0vals h5
  have hfd := fillDefaultsLoop_spec s.defaultSensitivityValues h3
    (alKeys (recalcLoop s.pClientList (resetMinSens s.minSensitivityValues)
      ULONG_MAX false).2.1)
    (recalcLoop s.pClientList (resetMinSens s.minSensitivityValues)
      ULONG_MAX false).2.1
    hrc.2.1 hrc.2.2.1
    (fun k hk => by rwa [hrc.2.1] at hk)
    (by rw [hrc.2.1]; exact h2)
  have hred : s.recalculateProperties =
      (HStatus.sOk,
        { s with
            minSensitivityValues :=
              (fillDefaultsLoop s.defaultSensitivityValues
                (alKeys (recalcLoop s.pClientList
                  (resetMinSens s.minSensitivityValues) ULONG_MAX false).2.1)
                (recalcLoop s.pClientList
                  (resetMinSens s.minSensitivityValues)
                  ULONG_MAX false).2.1).2
            minReportInterval :=
              if (recalcLoop s.pClientList
                  (resetMinSens s.minSensitivityValues)
                  ULONG_MAX false).2.2.1 = ULONG_MAX then
                s.defaultReportInterval
              else
                (recalcLoop s.pClientList
                  (resetMinSens s.minSensitivityValues)
                  ULONG_MAX false).2.2.1
            minReportIntervalExplicitlySet :=
              (recalcLoop s.pClientList
                (resetMinSens s.minSensitivityValues)
                ULONG_MAX false).2.2.2 }) := by
    simp only [ClientManager.recalculateProperties]
    rw [hrc.1, hfd.1]
    simp only [succeeded_sOk, if_true]
    by_cases hM : (recalcLoop s.pClientList
        (resetMinSens s.minSensitivityValues)
        ULONG_MAX false).2.2.1 = ULONG_MAX
    · simp [hM]
    · simp [hM]
  rw [hred]
  refine ⟨rfl, rfl, rfl, rfl, rfl, rfl, ?_, ?_⟩
  · rw [ArbitratedIntervalSpec]
    have hfold := hrc.2.2.2.2
    have hfs := foldRI_spec
      (s.pClientList.map (fun c => c.2.desiredReportInterval)) ULONG_MAX false
    by_cases hS : explicitIntervals s.pClientList = []
    · have hr0 := hfs.1 hS
      have hA : (recalcLoop s.pClientList
          (resetMinSens s.minSensitivityValues)
          ULONG_MAX false).2.2.1 = ULONG_MAX := by
        have h := congrArg Prod.fst hfold
        rw [hr0] at h
        exact h
      have hB : (recalcLoop s.pClientList
          (resetMinSens s.minSensitivityValues)
          ULONG_MAX false).2.2.2 = false := by
        have h := congrArg Prod.snd hfold
        rw [hr0] at h
        exact h
      constructor
      · intro _
        constructor
        · show (if _ = ULONG_MAX then s.defaultReportInterval else _) =
            s.defaultReportInterval
          rw [if_pos hA]
        · exact hB
      · intro hS'
        exact absurd hS hS'
    · have hr1 := hfs.2 hS
      have hA : (recalcLoop s.pClientList
          (resetMinSens s.minSensitivityValues)
          ULONG_MAX false).2.2.1 =
          (foldRI (s.pClientList.map (fun c => c.2.desiredReportInterval))
            ULONG_MAX false).1 := by
        have := congrArg Prod.fst hfold
        exact this
      have hB : (recalcLoop s.pClientList
          (resetMinSens s.minSensitivityValues)
          ULONG_MAX false).2.2.2 =
          (foldRI (s.pClientList.map (fun c => c.2.desiredReportInterval))
            ULONG_MAX false).2 := by
        have := congrArg Prod.snd hfold
        exact this
      have hlt : (foldRI (s.pClientList.map
          (fun c => c.2.desiredReportInterval)) ULONG_MAX false).1 <
          ULONG_MAX := by
        have hmem := hr1.1
        rw [List.mem_filter] at hmem
        simpa using (Bool.and_elim_right hmem.2)
      have hM : ¬ (recalcLoop s.pClientList
          (resetMinSens s.minSensitivityValues)
          ULONG_MAX false).2.2.1 = ULONG_MAX := by
        rw [hA]
        omega
      constructor
      · intro hS'
        exact absurd hS' hS
      · intro _
        refine ⟨?_, ?_, ?_⟩
        · show (if _ = ULONG_MAX then s.defaultReportInterval else _) ∈ _
          rw [if_neg hM, hA]
          exact hr1.1
        · intro d hd
          show (if _ = ULONG_MAX then s.defaultReportInterval else _) ≤ d
          rw [if_neg hM, hA]
          exact hr1.2.1 d hd
        · rw [hB]
          exact hr1.2.2
  · rw [ArbitratedSensitivitySpec]
    intro k hk
    have hkmin : k ∈ alKeys s.minSensitivityValues := by
      rw [h1]
      exact hk
    rcases alGet_some_of_mem hkmin with ⟨w0, hw0⟩
    have hms0 : alGet (resetMinSens s.minSensitivityValues) k =
        some PVal.vNull := by
      rw [alGet_resetMinSens, hw0]
      rfl
    have hrck : alGet (recalcLoop s.pClientList
        (resetMinSens s.minSensitivityValues) ULONG_MAX false).2.1 k =
        some ((overridesFor s.pClientList k).foldl combineMin PVal.vNull) := by
      rw [hrc.2.2.2.1 k, hms0]
      rfl
    have hkrc : k ∈ alKeys (recalcLoop s.pClientList
        (resetMinSens s.minSensitivityValues) ULONG_MAX false).2.1 := by
      rw [hrc.2.1]
      exact hk
    have hfill := hfd.2.1 k hkrc
    constructor
    · intro hov
      show alGet (fillDefaultsLoop _ _ _).2 k = alGet s.defaultSensitivityValues k
      rw [hfill, hrck, hov]
      simp
    · intro hov
      rcases hne : overridesFor s.pClientList k with _ | ⟨v, vs⟩
      · exact absurd hne hov
      have hwfels := overridesFor_wf h5 k
      rw [hne] at hwfels
      rcases hwfels v (List.mem_cons_self _ _) with ⟨d, hgd, hvnum, hvvt⟩
      have hallnum : ∀ x ∈ vs, x.isNumeric = true := by
        intro x hx
        rcases hwfels x (List.mem_cons_of_mem _ hx) with ⟨d2, hgd2, hx1, _⟩
        exact hx1
      have halltag : ∀ x ∈ v :: vs, x.isNumeric = true ∧ x.vt = d.vt := by
        intro x hx
        rcases hwfels x hx with ⟨d2, hgd2, hx1, hx2⟩
        rw [hgd] at hgd2
        have hdd : d2 = d := by injection hgd2.symm
        exact ⟨hx1, hdd ▸ hx2⟩
      have hfoldcons :
          (overridesFor s.pClientList k).foldl combineMin PVal.vNull =
            vs.foldl combineMin v := by
        rw [hne, List.foldl_cons, combineMin_vNull]
      have hpay := foldl_combineMin_payload vs v hvnum hallnum
      have hvt := foldl_combineMin_vt vs v d.vt (Or.inr hvnum) hvvt
        (fun x hx => halltag x (List.mem_cons_of_mem _ hx))
      have hnotnull : (vs.foldl combineMin v) ≠ PVal.vNull :=
        isNumeric_ne_vNull hpay.1
      have hcond : ¬ (alGet (recalcLoop s.pClientList
          (resetMinSens s.minSensitivityValues) ULONG_MAX false).2.1 k =
          some PVal.vNull) := by
        rw [hrck, hfoldcons]
        intro hc
        exact hnotnull (by injection hc)
      show ∃ w, alGet (fillDefaultsLoop _ _ _).2 k = some w ∧ _
      rw [hfill, if_neg hcond, hrck, hfoldcons]
      refine ⟨vs.foldl combineMin v, rfl, ?_, ?_, d, hgd, hvt⟩
      · rw [hpay.2, List.map_cons]
        have hmin := foldl_min_rat (vs.map PVal.payload) v.payload
        rcases hmin.1 with hm | hm
        · rw [hm]
          exact List.mem_cons_self _ _
        · exact List.mem_cons_of_mem _ hm
      · intro q hq
        rw [List.map_cons] at hq
        have hmin := foldl_min_rat (vs.map PVal.payload) v.payload
        rcases List.mem_cons.mp hq with hq | hq
        · rw [hpay.2, hq]
          exact hmin.2.1
        · rw [hpay.2]
          exact hmin.2.2 q hq

/-! ## Arbitration machinery: the batch sensitivity setter -/

theorem vt_tNull {v : PVal} (h : v.vt = VType.tNull) : v = PVal.vNull := by
  cases v <;> simp [PVal.vt] at h ⊢

theorem isNumeric_of_vt {v w : PVal} (h : v.vt = w.vt)
    (hw : w.isNumeric = true) : v.isNumeric = true := by
  cases v <;> cases w <;> simp [PVal.vt, PVal.isNumeric] at *

theorem validateSensItem_wf {minSens defaults : AList PVal}
    (hminv : ∀ p ∈ minSens, numTagOK defaults p.1 p.2 = true)
    {k : Nat} {v : PVal}
    (h : validateSensItem minSens k v = HStatus.sOk) :
    clientTagOK defaults k v = true := by
  rcases hg : alGet minSens k with _ | varTemp
  · rw [validateSensItem, hg] at h
    simp at h
  · rw [validateSensItem, hg] at h
    have h2 : (if (v.vt ≠ varTemp.vt ∧ v.vt ≠ VType.tNull) ∨
        v.isNegative = true then HStatus.eInvalidArg
        else HStatus.sOk) = HStatus.sOk := h
    by_cases hc : (v.vt ≠ varTemp.vt ∧ v.vt ≠ VType.tNull) ∨
        v.isNegative = true
    · rw [if_pos hc] at h2
      simp at h2
    · have hmv := hminv (k, varTemp) (alGet_mem hg)
      rcases hgd : alGet defaults k with _ | d
      · simp [numTagOK, hgd] at hmv
      · simp only [numTagOK, hgd, Bool.and_eq_true,
          decide_eq_true_eq] at hmv
        rcases not_or.mp hc with ⟨hc1, _⟩
        by_cases hnull : v.vt = VType.tNull
        · rw [clientTagOK, if_pos (vt_tNull hnull)]
        · have hvt : v.vt = varTemp.vt := by
            by_contra hne
            exact hc1 ⟨hne, hnull⟩
          have hnum : v.isNumeric = true := isNumeric_of_vt hvt hmv.1
          rw [clientTagOK, if_neg (isNumeric_ne_vNull hnum)]
          simp only [numTagOK, hgd, Bool.and_eq_true, decide_eq_true_eq]
          exact ⟨hnum, by rw [hvt, hmv.2]⟩

theorem validateSensItem_not_ok_failed {minSens : AList PVal} {k : Nat}
    {v : PVal} (h : validateSensItem minSens k v ≠ HStatus.sOk) :
    (validateSensItem minSens k v).succeeded = false := by
  rcases hg : alGet minSens k with _ | varTemp
  · rw [validateSensItem, hg]
    rfl
  · rw [validateSensItem, hg] at h ⊢
    have h2 : (if (v.vt ≠ varTemp.vt ∧ v.vt ≠ VType.tNull) ∨
        v.isNegative = true then HStatus.eInvalidArg
        else HStatus.sOk) ≠ HStatus.sOk := h
    show (if (v.vt ≠ varTemp.vt ∧ v.vt ≠ VType.tNull) ∨
        v.isNegative = true then HStatus.eInvalidArg
        else HStatus.sOk).succeeded = false
    by_cases hc : (v.vt ≠ varTemp.vt ∧ v.vt ≠ VType.tNull) ∨
        v.isNegative = true
    · rw [if_pos hc]
      rfl
    · rw [if_neg hc] at h2
      exact absurd rfl h2

theorem mem_alKeys_of_mem {β : Type} {m : AList β} {p : Nat × β}
    (h : p ∈ m) : p.1 ∈ alKeys m := List.mem_map.mpr ⟨p, h, rfl⟩

theorem setDCSLoop_spec (minSens defaults : AList PVal)
    (hminv : ∀ p ∈ minSens, numTagOK defaults p.1 p.2 = true) :
    ∀ (vals : List (Nat × PVal)) (cv : AList PVal) (results : AList RVal)
      (fe : Bool),
      (∀ p ∈ cv, clientTagOK defaults p.1 p.2 = true) →
      (alKeys cv).Nodup →
      (∀ p ∈ (setDCSLoop minSens vals cv results fe).1,
        clientTagOK defaults p.1 p.2 = true) ∧
      (alKeys (setDCSLoop minSens vals cv results fe).1).Nodup ∧
      ((setDCSLoop minSens vals cv results fe).2.2 = true ↔
        (fe = true ∨ ∃ p ∈ vals,
          validateSensItem minSens p.1 p.2 ≠ HStatus.sOk)) ∧
      (∀ k, ¬ k ∈ alKeys vals →
        alGet (setDCSLoop minSens vals cv results fe).1 k = alGet cv k ∧
        alGet (setDCSLoop minSens vals cv results fe).2.1 k =
          alGet results k) ∧
      ((alKeys vals).Nodup → ∀ p ∈ vals,
        (validateSensItem minSens p.1 p.2 = HStatus.sOk →
          alGet (setDCSLoop minSens vals cv results fe).1 p.1 = some p.2 ∧
          alGet (setDCSLoop minSens vals cv results fe).2.1 p.1 =
            some (RVal.ok p.2)) ∧
        (validateSensItem minSens p.1 p.2 ≠ HStatus.sOk →
          alGet (setDCSLoop minSens vals cv results fe).1 p.1 =
            alGet cv p.1 ∧
          alGet (setDCSLoop minSens vals cv results fe).2.1 p.1 =
            some (RVal.err (validateSensItem minSens p.1 p.2)))) := by
  intro vals
  induction vals with
  | nil =>
    intro cv results fe hcv hnodup
    refine ⟨hcv, hnodup, by simp [setDCSLoop], ?_, ?_⟩
    · intro k _
      exact ⟨rfl, rfl⟩
    · intro _ p hp
      simp at hp
  | cons item rest ih =>
    rcases item with ⟨k, v⟩
    intro cv results fe hcv hnodup
    by_cases hok : validateSensItem minSens k v = HStatus.sOk
    · have hred : setDCSLoop minSens ((k, v) :: rest) cv results fe =
          setDCSLoop minSens rest (alSet cv k v)
            (alSet results k (RVal.ok v)) fe := by
        simp only [setDCSLoop]
        rw [hok]
        simp [succeeded_sOk]
      have hcv2 : ∀ p ∈ alSet cv k v,
          clientTagOK defaults p.1 p.2 = true := by
        intro p hp
        rcases mem_alSet p hp with h | h
        · rw [h]
          exact validateSensItem_wf hminv hok
        · exact hcv p h
      have hnodup2 := @alKeys_nodup_alSet PVal cv k v hnodup
      have h2 := ih (alSet cv k v) (alSet results k (RVal.ok v)) fe
        hcv2 hnodup2
      rw [hred]
      refine ⟨h2.1, h2.2.1, ?_, ?_, ?_⟩
      · rw [h2.2.2.1]
        constructor
        · rintro (h | ⟨p, hp, hnp⟩)
          · exact Or.inl h
          · exact Or.inr ⟨p, List.mem_cons_of_mem _ hp, hnp⟩
        · rintro (h | ⟨p, hp, hnp⟩)
          · exact Or.inl h
          · rcases List.mem_cons.mp hp with hp | hp
            · rw [hp] at hnp
              exact absurd hok hnp
            · exact Or.inr ⟨p, hp, hnp⟩
      · intro x hx
        rw [alKeys_cons] at hx
        have hxk : x ≠ k :=
          fun hh => hx (List.mem_cons.mpr (Or.inl hh))
        have hxrest : ¬ x ∈ alKeys rest :=
          fun hh => hx (List.mem_cons.mpr (Or.inr hh))
        have h3 := h2.2.2.2.1 x hxrest
        rw [h3.1, h3.2, alGet_alSet_ne cv v hxk,
          alGet_alSet_ne results (RVal.ok v) hxk]
        exact ⟨rfl, rfl⟩
      · intro hnodupv p hp
        rw [alKeys_cons] at hnodupv
        have hknotin : ¬ k ∈ alKeys rest :=
          (List.nodup_cons.mp hnodupv).1
        have hnodupr : (alKeys rest).Nodup :=
          (List.nodup_cons.mp hnodupv).2
        rcases List.mem_cons.mp hp with hp | hp
        · rw [hp]
          constructor
          · intro _
            have h3 := h2.2.2.2.1 k hknotin
            rw [h3.1, h3.2, alGet_alSet_self, alGet_alSet_self]
            exact ⟨rfl, rfl⟩
          · intro hcon
            exact absurd hok hcon
        · have hpkey : p.1 ∈ alKeys rest := mem_alKeys_of_mem hp
          have hpk : p.1 ≠ k := fun hh => hknotin (hh ▸ hpkey)
          have h3 := h2.2.2.2.2 hnodupr p hp
          constructor
          · exact h3.1
          · intro hcon
            have h4 := h3.2 hcon
            rw [h4.1, alGet_alSet_ne cv v hpk]
            exact ⟨rfl, h4.2⟩
    · have hfail := validateSensItem_not_ok_failed hok
      have hred : setDCSLoop minSens ((k, v) :: rest) cv results fe =
          setDCSLoop minSens rest cv
            (alSet results k (RVal.err (validateSensItem minSens k v)))
            true := by
        simp only [setDCSLoop]
        rw [hfail]
        simp
      have h2 := ih cv
        (alSet results k (RVal.err (validateSensItem minSens k v))) true
        hcv hnodup
      rw [hred]
      refine ⟨h2.1, h2.2.1, ?_, ?_, ?_⟩
      · rw [h2.2.2.1]
        constructor
        · intro _
          exact Or.inr ⟨(k, v), List.mem_cons_self _ _, hok⟩
        · intro _
          exact Or.inl rfl
      · intro x hx
        rw [alKeys_cons] at hx
        have hxk : x ≠ k :=
          fun hh => hx (List.mem_cons.mpr (Or.inl hh))
        have hxrest : ¬ x ∈ alKeys rest :=
          fun hh => hx (List.mem_cons.mpr (Or.inr hh))
        have h3 := h2.2.2.2.1 x hxrest
        rw [h3.1, h3.2,
          alGet_alSet_ne results (RVal.err (validateSensItem minSens k v)) hxk]
        exact ⟨rfl, rfl⟩
      · intro hnodupv p hp
        rw [alKeys_cons] at hnodupv
        have hknotin : ¬ k ∈ alKeys rest :=
          (List.nodup_cons.mp hnodupv).1
        have hnodupr : (alKeys rest).Nodup :=
          (List.nodup_cons.mp hnodupv).2
        rcases List.mem_cons.mp hp with hp | hp
        · rw [hp]
          constructor
          · intro hcon
            exact absurd hcon hok
          · intro _
            have h3 := h2.2.2.2.1 k hknotin
            rw [h3.1, h3.2, alGet_alSet_self]
            exact ⟨rfl, rfl⟩
        · have hpkey : p.1 ∈ alKeys rest := mem_alKeys_of_mem hp
          have hpk : p.1 ≠ k := fun hh => hknotin (hh ▸ hpkey)
          have h3 := h2.2.2.2.2 hnodupr p hp
          constructor
          · exact h3.1
          · intro hcon
            have h4 := h3.2 hcon
            rw [h4.1]
            exact ⟨rfl, h4.2⟩

/-! ## Arbitration machinery: all registry mutations -/

theorem applyMutation_spec (op : MutationOp) (s : ClientManager)
    (hwf : SensWf s)
    (hsucc : (applyMutation op s).1.succeeded = true) :
    ArbitratedIntervalSpec (applyMutation op s).2 ∧
    ArbitratedSensitivitySpec (applyMutation op s).2 := by
  obtain ⟨w1, w2, w3, w4, w5⟩ := hwf
  cases op with
  | connect id =>
    simp only [applyMutation, ClientManager.connect] at hsucc ⊢
    by_cases hlen : s.pClientList.length ≠ s.clientCount
    · rw [if_pos hlen] at hsucc
      simp [HStatus.succeeded] at hsucc
    · rw [if_neg hlen] at hsucc ⊢
      by_cases hhas : alHas s.pClientList id = true
      · rw [if_pos hhas] at hsucc
        simp [HStatus.succeeded] at hsucc
      · rw [if_neg hhas] at hsucc ⊢
        have hspec := recalculateProperties_spec
          { s with
              pClientList := alSet s.pClientList id
                { fSubscribed := false
                  pDesiredSensitivityValues := []
                  desiredReportInterval := CURRENT_REPORT_INTERVAL_NOT_SET }
              clientCount := ulongInc s.clientCount }
          w1 w2 w3 ?_
        · exact ⟨hspec.2.2.2.2.2.2.1, hspec.2.2.2.2.2.2.2⟩
        · intro c hc
          rcases mem_alSet c hc with h | h
          · rw [h]
            refine ⟨by simp [alKeys], ?_⟩
            intro p hp
            simp at hp
          · exact w5 c h
  | disconnect id =>
    by_cases hc0 : s.clientCount = 0
    · simp only [applyMutation, ClientManager.disconnect, if_pos hc0] at hsucc
      simp [HStatus.succeeded] at hsucc
    · by_cases hlen : s.pClientList.length ≠ s.clientCount
      · simp only [applyMutation, ClientManager.disconnect, if_neg hc0,
          if_pos hlen] at hsucc
        simp [HStatus.succeeded] at hsucc
      · obtain hnone | ⟨entry, hg⟩ : alGet s.pClientList id = none ∨
            ∃ e, alGet s.pClientList id = some e := by
          cases alGet s.pClientList id
          · exact Or.inl rfl
          · exact Or.inr ⟨_, rfl⟩
        · simp only [applyMutation, ClientManager.disconnect, if_neg hc0,
            if_neg hlen, hnone] at hsucc
          simp [HStatus.succeeded] at hsucc
        · simp only [applyMutation, ClientManager.disconnect, if_neg hc0,
            if_neg hlen, hg]
          have hspec := recalculateProperties_spec
            { s with
                pClientList := alErase s.pClientList id
                subscriberCount :=
                  if entry.fSubscribed then ulongDec s.subscriberCount
                  else s.subscriberCount
                clientCount := ulongDec s.clientCount }
            w1 w2 w3 ?_
          · exact ⟨hspec.2.2.2.2.2.2.1, hspec.2.2.2.2.2.2.2⟩
          · intro c hc
            exact w5 c (mem_alErase c hc)
  | subscribe id =>
    obtain hnone | ⟨entry, hg⟩ : alGet s.pClientList id = none ∨
        ∃ e, alGet s.pClientList id = some e := by
      cases alGet s.pClientList id
      · exact Or.inl rfl
      · exact Or.inr ⟨_, rfl⟩
    · simp only [applyMutation, ClientManager.subscribe, hnone] at hsucc
      simp [HStatus.succeeded] at hsucc
    · by_cases hsub : entry.fSubscribed = true
      · simp only [applyMutation, ClientManager.subscribe, hg,
          if_pos hsub] at hsucc
        simp [HStatus.succeeded] at hsucc
      · simp only [applyMutation, ClientManager.subscribe, hg, if_neg hsub]
        have hspec := recalculateProperties_spec
          { s with
              pClientList := alSet s.pClientList id
                { entry with fSubscribed := true }
              subscriberCount := ulongInc s.subscriberCount }
          w1 w2 w3 ?_
        · exact ⟨hspec.2.2.2.2.2.2.1, hspec.2.2.2.2.2.2.2⟩
        · intro c hc
          rcases mem_alSet c hc with h | h
          · rw [h]
            exact w5 (id, entry) (alGet_mem hg)
          · exact w5 c h
  | unsubscribe id =>
    obtain hnone | ⟨entry, hg⟩ : alGet s.pClientList id = none ∨
        ∃ e, alGet s.pClientList id = some e := by
      cases alGet s.pClientList id
      · exact Or.inl rfl
      · exact Or.inr ⟨_, rfl⟩
    · simp only [applyMutation, ClientManager.unsubscribe, hnone] at hsucc
      simp [HStatus.succeeded] at hsucc
    · by_cases hsub : entry.fSubscribed = false
      · simp only [applyMutation, ClientManager.unsubscribe, hg,
          if_pos hsub] at hsucc
        simp [HStatus.succeeded] at hsucc
      · simp only [applyMutation, ClientManager.unsubscribe, hg,
          if_neg hsub]
        have hspec := recalculateProperties_spec
          { s with
              pClientList := alSet s.pClientList id
                { entry with fSubscribed := false }
              subscriberCount := ulongDec s.subscriberCount }
          w1 w2 w3 ?_
        · exact ⟨hspec.2.2.2.2.2.2.1, hspec.2.2.2.2.2.2.2⟩
        · intro c hc
          rcases mem_alSet c hc with h | h
          · rw [h]
            exact w5 (id, entry) (alGet_mem hg)
          · exact w5 c h
  | setReportInterval id v =>
    by_cases hval : v ≠ 0 ∧ v < s.minSupportedReportInterval
    · simp only [applyMutation, ClientManager.setDesiredReportInterval,
        if_pos hval] at hsucc
      simp [HStatus.succeeded] at hsucc
    · obtain hnone | ⟨entry, hg⟩ : alGet s.pClientList id = none ∨
          ∃ e, alGet s.pClientList id = some e := by
        cases alGet s.pClientList id
        · exact Or.inl rfl
        · exact Or.inr ⟨_, rfl⟩
      · simp only [applyMutation, ClientManager.setDesiredReportInterval,
          if_neg hval, hnone] at hsucc
        simp [HStatus.succeeded] at hsucc
      · simp only [applyMutation, ClientManager.setDesiredReportInterval,
          if_neg hval, hg]
        have hspec := recalculateProperties_spec
          { s with
              pClientList := alSet s.pClientList id
                { entry with desiredReportInterval := v } }
          w1 w2 w3 ?_
        · exact ⟨hspec.2.2.2.2.2.2.1, hspec.2.2.2.2.2.2.2⟩
        · intro c hc
          rcases mem_alSet c hc with h | h
          · rw [h]
            exact w5 (id, entry) (alGet_mem hg)
          · exact w5 c h
  | setChangeSensitivity id vals =>
    obtain hnone | ⟨entry, hg⟩ : alGet s.pClientList id = none ∨
        ∃ e, alGet s.pClientList id = some e := by
      cases alGet s.pClientList id
      · exact Or.inl rfl
      · exact Or.inr ⟨_, rfl⟩
    · simp only [applyMutation, ClientManager.setDesiredChangeSensitivity,
        hnone] at hsucc
      simp [HStatus.succeeded] at hsucc
    · simp only [applyMutation, ClientManager.setDesiredChangeSensitivity,
        hg]
      have hentrywf := w5 (id, entry) (alGet_mem hg)
      have hloop := setDCSLoop_spec s.minSensitivityValues
        s.defaultSensitivityValues w4 vals
        entry.pDesiredSensitivityValues [] false hentrywf.2 hentrywf.1
      have hspec := recalculateProperties_spec
        { s with
            pClientList := alSet s.pClientList id
              { entry with
                  pDesiredSensitivityValues :=
                    (setDCSLoop s.minSensitivityValues vals
                      entry.pDesiredSensitivityValues [] false).1 } }
        w1 w2 w3 ?_
      · split_ifs
        · exact ⟨hspec.2.2.2.2.2.2.1, hspec.2.2.2.2.2.2.2⟩
        · exact ⟨hspec.2.2.2.2.2.2.1, hspec.2.2.2.2.2.2.2⟩
      · intro c hc
        rcases mem_alSet c hc with h | h
        · rw [h]
          exact ⟨hloop.2.1, hloop.1⟩
        · exact w5 c h

/-! ## C2, C3: arbitration after every registry mutation -/

/-- C2 counterexample: the explicit-interval flag is not set "as soon as
any client sets interval >= 1". A connected client that sets the interval
`ULONG_MAX` (which is >= 1, and accepted by the call) collides with the
fold's `ULONG_MAX` sentinel under the strict `<` comparison of
`RecalculateProperties`, so after the successful call the flag is still
`false` and the arbitrated interval stays at the default. -/
theorem reportInterval_ulongmax_flag_cex :
    (ClientManager.setDesiredReportInterval
        ((ClientManager.init 1000 10 []).connect 1).2 1
        ULONG_MAX).1.succeeded = true ∧
    (∃ c ∈ (ClientManager.setDesiredReportInterval
        ((ClientManager.init 1000 10 []).connect 1).2 1
        ULONG_MAX).2.pClientList,
      1 ≤ c.2.desiredReportInterval) ∧
    (ClientManager.setDesiredReportInterval
        ((ClientManager.init 1000 10 []).connect 1).2 1
        ULONG_MAX).2.minReportIntervalExplicitlySet = false := by
  decide

/-- C2 (amended): after every successful registry mutation on a
well-formed state, the arbitrated minimum report interval is the least
of the connected clients' explicit desired intervals - the nonzero ones
strictly below `ULONG_MAX` - or the configured default when there is
none, and the explicit flag is set iff such an interval exists (an
interval of 0 does not set it, and neither does `ULONG_MAX`). -/
theorem arbitrated_interval_after_mutation (op : MutationOp)
    (s : ClientManager) (hwf : SensWf s)
    (hsucc : (applyMutation op s).1.succeeded = true) :
    ArbitratedIntervalSpec (applyMutation op s).2 :=
  (applyMutation_spec op s hwf hsucc).1

/-- C2 witness: the amended theorem applied to connecting client 1 to a
freshly initialized manager. -/
theorem arbitrated_interval_after_mutation_witness :
    ArbitratedIntervalSpec
      (applyMutation (MutationOp.connect 1)
        (ClientManager.init 1000 10 [])).2 :=
  arbitrated_interval_after_mutation (MutationOp.connect 1)
    (ClientManager.init 1000 10 [])
    (by unfold SensWf; decide) (by decide)

/-- C3 counterexample: the arbitrated sensitivity is not
`min(client overrides, default)`. With a per-field default of 5, a
single client override of 9 makes the recomputed arbitrated value 9
(the fold in `RecalculateProperties` only folds client overrides and
consults the default solely for fields with no override), while the
claimed minimum of overrides and default would be 5. -/
theorem sensitivity_arbitration_ignores_default_cex :
    (ClientManager.setDesiredChangeSensitivity
        ((ClientManager.init 1000 10 [(0, PVal.vR8 5)]).connect 1).2 1
        [(0, PVal.vR8 9)]).1.succeeded = true ∧
    alGet (ClientManager.setDesiredChangeSensitivity
        ((ClientManager.init 1000 10 [(0, PVal.vR8 5)]).connect 1).2 1
        [(0, PVal.vR8 9)]).2.2.defaultSensitivityValues 0 =
      some (PVal.vR8 5) ∧
    overridesFor (ClientManager.setDesiredChangeSensitivity
        ((ClientManager.init 1000 10 [(0, PVal.vR8 5)]).connect 1).2 1
        [(0, PVal.vR8 9)]).2.2.pClientList 0 = [PVal.vR8 9] ∧
    alGet (ClientManager.setDesiredChangeSensitivity
        ((ClientManager.init 1000 10 [(0, PVal.vR8 5)]).connect 1).2 1
        [(0, PVal.vR8 9)]).2.2.minSensitivityValues 0 =
      some (PVal.vR8 9) := by
  decide

/-- C3 (amended): after every successful registry mutation on a
well-formed state, every sensitivity field with no client override holds
exactly its configured default, and every field with at least one client
override holds a value of the default's tag whose payload is the least
client override (the default does not take part in the minimum). -/
theorem arbitrated_sensitivity_after_mutation (op : MutationOp)
    (s : ClientManager) (hwf : SensWf s)
    (hsucc : (applyMutation op s).1.succeeded = true) :
    ArbitratedSensitivitySpec (applyMutation op s).2 :=
  (applyMutation_spec op s hwf hsucc).2

/-- C3 witness: the amended theorem applied to connecting client 1 to a
manager initialized with one sensitivity default. -/
theorem arbitrated_sensitivity_after_mutation_witness :
    ArbitratedSensitivitySpec
      (applyMutation (MutationOp.connect 1)
        (ClientManager.init 1000 10 [(0, PVal.vR8 5)])).2 :=
  arbitrated_sensitivity_after_mutation (MutationOp.connect 1)
    (ClientManager.init 1000 10 [(0, PVal.vR8 5)])
    (by unfold SensWf; decide) (by decide)

/-! ## C5: per-item batch validation of desired change sensitivities -/

/-- C5: `SetDesiredChangeSensitivity` validates and applies each item of
the batch individually. Every item that passes validation is echoed as a
success entry in the returned per-key result map and stored in the
client's desired values of the new state; every failing item contributes
an error entry carrying its own validation error; and if at least one
item failed the overall status is the partial-failure status `S_FALSE`,
while it is `S_OK` when every item passed. -/
theorem setDesiredChangeSensitivity_partial_failure (s : ClientManager)
    (id : Nat) (entry : ClientEntry) (vals : List (Nat × PVal))
    (hwf : SensWf s)
    (hg : alGet s.pClientList id = some entry)
    (hnd : (alKeys vals).Nodup) :
    (∀ p ∈ vals,
      (validateSensItem s.minSensitivityValues p.1 p.2 = HStatus.sOk →
        alGet (s.setDesiredChangeSensitivity id vals).2.1 p.1 =
          some (RVal.ok p.2) ∧
        ∃ e2, alGet (s.setDesiredChangeSensitivity id vals).2.2.pClientList
            id = some e2 ∧
          alGet e2.pDesiredSensitivityValues p.1 = some p.2) ∧
      (validateSensItem s.minSensitivityValues p.1 p.2 ≠ HStatus.sOk →
        alGet (s.setDesiredChangeSensitivity id vals).2.1 p.1 =
          some (RVal.err (validateSensItem s.minSensitivityValues p.1 p.2)))) ∧
    ((∃ p ∈ vals,
        validateSensItem s.minSensitivityValues p.1 p.2 ≠ HStatus.sOk) →
      (s.setDesiredChangeSensitivity id vals).1 = HStatus.sFalse) ∧
    ((∀ p ∈ vals,
        validateSensItem s.minSensitivityValues p.1 p.2 = HStatus.sOk) →
      (s.setDesiredChangeSensitivity id vals).1 = HStatus.sOk) := by
  obtain ⟨w1, w2, w3, w4, w5⟩ := hwf
  have hentrywf := w5 (id, entry) (alGet_mem hg)
  have hloop := setDCSLoop_spec s.minSensitivityValues
    s.defaultSensitivityValues w4 vals entry.pDesiredSensitivityValues []
    false hentrywf.2 hentrywf.1
  have hspec := recalculateProperties_spec
    { s with
        pClientList := alSet s.pClientList id
          { entry with
              pDesiredSensitivityValues :=
                (setDCSLoop s.minSensitivityValues vals
                  entry.pDesiredSensitivityValues [] false).1 } }
    w1 w2 w3 (by
      intro c hc
      rcases mem_alSet c hc with h | h
      · rw [h]
        exact ⟨hloop.2.1, hloop.1⟩
      · exact w5 c h)
  have hpl : alGet (ClientManager.recalculateProperties
      { s with
          pClientList := alSet s.pClientList id
            { entry with
                pDesiredSensitivityValues :=
                  (setDCSLoop s.minSensitivityValues vals
                    entry.pDesiredSensitivityValues [] false).1 } }).2.pClientList
      id = some
        { entry with
            pDesiredSensitivityValues :=
              (setDCSLoop s.minSensitivityValues vals
                entry.pDesiredSensitivityValues [] false).1 } := by
    rw [hspec.2.1]
    exact alGet_alSet_self _ _ _
  simp only [ClientManager.setDesiredChangeSensitivity, hg]
  by_cases hfe : (setDCSLoop s.minSensitivityValues vals
      entry.pDesiredSensitivityValues [] false).2.2 = true
  · have hcond : (ClientManager.recalculateProperties
        { s with
            pClientList := alSet s.pClientList id
              { entry with
                  pDesiredSensitivityValues :=
                    (setDCSLoop s.minSensitivityValues vals
                      entry.pDesiredSensitivityValues [] false).1 } }).1.succeeded
          = true ∧ (setDCSLoop s.minSensitivityValues vals
            entry.pDesiredSensitivityValues [] false).2.2 = true := by
      refine ⟨?_, hfe⟩
      rw [hspec.1]
      exact succeeded_sOk
    rw [if_pos hcond]
    refine ⟨?_, fun _ => rfl, ?_⟩
    · intro p hp
      have hitem := hloop.2.2.2.2 hnd p hp
      constructor
      · intro hok
        exact ⟨(hitem.1 hok).2, ⟨_, hpl, (hitem.1 hok).1⟩⟩
      · intro hbad
        exact (hitem.2 hbad).2
    · intro hall
      rcases hloop.2.2.1.mp hfe with h | ⟨p, hp, hnp⟩
      · simp at h
      · exact absurd (hall p hp) hnp
  · have hcond : ¬ ((ClientManager.recalculateProperties
        { s with
            pClientList := alSet s.pClientList id
              { entry with
                  pDesiredSensitivityValues :=
                    (setDCSLoop s.minSensitivityValues vals
                      entry.pDesiredSensitivityValues [] false).1 } }).1.succeeded
          = true ∧ (setDCSLoop s.minSensitivityValues vals
            entry.pDesiredSensitivityValues [] false).2.2 = true) :=
      fun hc => hfe hc.2
    rw [if_neg hcond]
    refine ⟨?_, ?_, fun _ => hspec.1⟩
    · intro p hp
      have hitem := hloop.2.2.2.2 hnd p hp
      constructor
      · intro hok
        exact ⟨(hitem.1 hok).2, ⟨_, hpl, (hitem.1 hok).1⟩⟩
      · intro hbad
        exact (hitem.2 hbad).2
    · rintro ⟨p, hp, hnp⟩
      exact absurd (hloop.2.2.1.mpr (Or.inr ⟨p, hp, hnp⟩)) hfe

/-- C5 witness: a batch of three items on a connected client where the
middle item names an unsupported key; the theorem yields the
partial-failure overall status. -/
theorem setDesiredChangeSensitivity_partial_failure_witness :
    (ClientManager.setDesiredChangeSensitivity
        ((ClientManager.init 1000 10
          [(0, PVal.vR8 5), (1, PVal.vR8 5), (2, PVal.vR8 5)]).connect 1).2 1
        [(0, PVal.vR8 1), (7, PVal.vR8 1), (2, PVal.vR8 2)]).1 =
      HStatus.sFalse :=
  (setDesiredChangeSensitivity_partial_failure
      ((ClientManager.init 1000 10
        [(0, PVal.vR8 5), (1, PVal.vR8 5), (2, PVal.vR8 5)]).connect 1).2 1
      { fSubscribed := false
        pDesiredSensitivityValues := []
        desiredReportInterval := CURRENT_REPORT_INTERVAL_NOT_SET }
      [(0, PVal.vR8 1), (7, PVal.vR8 1), (2, PVal.vR8 2)]
      (by unfold SensWf; decide) (by decide) (by decide)).2.1
    ⟨(7, PVal.vR8 1), by decide, by decide⟩

end SpbAccel
